import Mathlib

/-!
Verification development for the fitai-proxy meal-generation pipeline.

The embedding follows `api/generate-meals.js` (the feature-complete
variant with Upstash caching, rate limiting and Spoonacular enrichment)
together with `requireProxyKey` from `lib/utils.js`.

Modelling conventions:
* JS numbers are exact rationals; `Option ℚ` is used where NaN can
  occur (`none` models NaN).  IEEE-754 rounding itself is out of scope.
* `JSON.parse` is embedded as a fuel-bounded recursive-descent parser
  over the JSON grammar; the fuel is generous enough for any input that
  a real engine would parse without exhausting its own recursion limit.
* The in-memory `Map` caches are embedded as functions
  `String → Option entry`; `Date.now()` is an explicit `now : ℕ`
  parameter (milliseconds).
* External services (OpenAI, Spoonacular, Upstash availability) are
  inputs of the embedded handler: each run receives the responses the
  network would have produced.
-/

/-- JSON values as produced by `JSON.parse`, which is also the shape of
the JS values flowing through the pipeline.  Object fields keep textual
order; duplicate keys may appear and field lookup takes the last
occurrence, matching `JSON.parse` semantics for duplicate keys. -/
inductive JsValue where
  | null
  | bool (b : Bool)
  | num (q : ℚ)
  | str (s : String)
  | arr (elems : List JsValue)
  | obj (fields : List (String × JsValue))
deriving Repr, Inhabited

/-- JS truthiness `!!v` of a JSON value: `null`, `false`, `0` and the
empty string are falsy; every array and object is truthy. -/
def truthy : JsValue → Bool
  | .null => false
  | .bool b => b
  | .num q => if q = 0 then false else true
  | .str s => if s = "" then false else true
  | .arr _ => true
  | .obj _ => true

/-- JS property read `v.k` for JSON values: `none` models `undefined`
(missing field, or a receiver that is not an object).  For duplicate
keys the last occurrence wins, as in JS. -/
def jsField : JsValue → String → Option JsValue
  | .obj kvs, k => (kvs.reverse.find? (fun p => p.1 == k)).map Prod.snd
  | _, _ => none

/-- Optional-chaining read `v?.k` with an `undefined`-propagating
receiver. -/
def jsFieldOpt (v : Option JsValue) (k : String) : Option JsValue :=
  v.bind (fun w => jsField w k)

/-- JS `a || b` where `a` may be `undefined` (`none`). -/
def jsOrElse (a : Option JsValue) (b : JsValue) : JsValue :=
  match a with
  | some v => if truthy v then v else b
  | none => b

/-- Digit list to natural number. -/
def digitsToNat (ds : List Char) : Nat :=
  ds.foldl (fun a c => a * 10 + (c.toNat - 48)) 0

/-- Whitespace recognized by `String.prototype.trim` and by `Number`
coercion of strings.  The model covers the ASCII whitespace characters;
exotic Unicode space characters are outside the model. -/
def isJsWs (c : Char) : Bool :=
  c = ' ' || c = '\t' || c = '\n' || c = '\r' || c = '\x0b' || c = '\x0c'

/-- Lenient decimal numeral for `Number(string)`: optional sign, digits
with optional fraction (".5" and "5." are accepted), optional exponent;
the whole input must be consumed.  Returns `none` (NaN) otherwise. -/
def parseDecLenient (cs : List Char) : Option ℚ :=
  let (sgn, cs1) : ℚ × List Char :=
    match cs with
    | '-' :: r => (-1, r)
    | '+' :: r => (1, r)
    | _ => (1, cs)
  let ip := cs1.takeWhile Char.isDigit
  let rest1 := cs1.dropWhile Char.isDigit
  let (fd, rest2) : List Char × List Char :=
    match rest1 with
    | '.' :: r => (r.takeWhile Char.isDigit, r.dropWhile Char.isDigit)
    | _ => ([], rest1)
  if ip.isEmpty ∧ fd.isEmpty then none
  else
    let mantissa : ℚ := (digitsToNat ip : ℚ) + (digitsToNat fd : ℚ) / (10 : ℚ) ^ fd.length
    let hadDot : Bool := match rest1 with | '.' :: _ => true | _ => false
    let _ := hadDot
    match rest2 with
    | [] => some (sgn * mantissa)
    | e :: r =>
      if e = 'e' ∨ e = 'E' then
        let (esgn, r1) : ℤ × List Char :=
          match r with
          | '+' :: t => (1, t)
          | '-' :: t => (-1, t)
          | _ => (1, r)
        let ed := r1.takeWhile Char.isDigit
        if ed.isEmpty ∨ ¬ (r1.dropWhile Char.isDigit).isEmpty then none
        else some (sgn * mantissa * (10 : ℚ) ^ (esgn * (digitsToNat ed : ℤ)))
      else none

/-- `Number(s)` for a string: whitespace-trimmed decimal numeral; an
empty or all-whitespace string converts to 0; anything else is NaN
(`none`).  JS specials (`Infinity`, hex/binary literals) have no ℚ
counterpart and are modeled as NaN. -/
def jsStrToNumber (s : String) : Option ℚ :=
  let t := ((s.toList.dropWhile isJsWs).reverse.dropWhile isJsWs).reverse
  if t.isEmpty then some 0 else parseDecLenient t

/-- JS `Number(v)` (ToNumber) on JSON values; `none` models NaN.
Arrays and objects are stringified first in JS (ToPrimitive); the model
covers the shapes reachable in this pipeline: `[]` converts to 0, a
one-element array converts like its element when that is a number, a
numeric string or null, and other arrays/objects are NaN. -/
def jsToNumber : JsValue → Option ℚ
  | .null => some 0
  | .bool b => some (if b then 1 else 0)
  | .num q => some q
  | .str s => jsStrToNumber s
  | .arr [] => some 0
  | .arr [x] =>
    match x with
    | .num q => some q
    | .str s => jsStrToNumber s
    | .null => some 0
    | _ => none
  | .arr _ => none
  | .obj _ => none

/-- `Math.round` on a real (non-NaN) number: half-up, `⌊q + 1/2⌋`. -/
def jsRound (q : ℚ) : ℤ := ⌊q + 1 / 2⌋

/-- Decimal digits of the fractional part `r / d`, fuel-bounded.  Every
value derived from an IEEE double has a terminating expansion well
within the fuel. -/
def fracDigits : Nat → Nat → Nat → List Char
  | 0, _, _ => []
  | _ + 1, 0, _ => []
  | fuel + 1, r, d =>
    let r10 := r * 10
    Char.ofNat (48 + r10 / d) :: fracDigits fuel (r10 % d) d

/-- Decimal rendering of a rational, modelling how JS prints the
numbers that occur in this pipeline (integers and terminating
decimals). -/
def ratToDisplay (q : ℚ) : String :=
  if q.den = 1 then toString q.num
  else
    let sign := if q.num < 0 then "-" else ""
    let n := q.num.natAbs
    sign ++ toString (n / q.den) ++ "." ++ String.mk (fracDigits 1200 (n % q.den) q.den)

mutual

/-- JS `String(v)` (template-literal conversion) of a JSON value. -/
def jsDisplay : JsValue → String
  | .null => "null"
  | .bool b => if b then "true" else "false"
  | .num q => ratToDisplay q
  | .str s => s
  | .arr xs => String.intercalate "," (jsDisplayItems xs)
  | .obj _ => "[object Object]"

/-- Elements of `Array.prototype.join(",")`; null elements print as the
empty string, as in JS. -/
def jsDisplayItems : List JsValue → List String
  | [] => []
  | v :: rest =>
    (match v with
     | .null => ""
     | w => jsDisplay w) :: jsDisplayItems rest

end

/-! ### The JSON grammar (the embedding of `JSON.parse`) -/

/-- JSON whitespace. -/
def isJsonWs (c : Char) : Bool :=
  c = ' ' || c = '\t' || c = '\n' || c = '\r'

/-- Drop leading JSON whitespace. -/
def skipWs (cs : List Char) : List Char := cs.dropWhile isJsonWs

/-- Hexadecimal digit value. -/
def hexVal (c : Char) : Option Nat :=
  if '0' ≤ c ∧ c ≤ '9' then some (c.toNat - 48)
  else if 'a' ≤ c ∧ c ≤ 'f' then some (c.toNat - 87)
  else if 'A' ≤ c ∧ c ≤ 'F' then some (c.toNat - 55)
  else none

/-- JSON string body (after the opening quote), with escape handling.
Lone `\uXXXX` escapes map through `Char.ofNat`; surrogate pairing of
UTF-16 units is outside the model. -/
def parseStrAux : Nat → List Char → List Char → Option (String × List Char)
  | 0, _, _ => none
  | fuel + 1, acc, cs =>
    match cs with
    | [] => none
    | c :: rest =>
      if c = '"' then some (String.mk acc.reverse, rest)
      else if c = '\\' then
        match rest with
        | [] => none
        | e :: rest2 =>
          if e = '"' then parseStrAux fuel ('"' :: acc) rest2
          else if e = '\\' then parseStrAux fuel ('\\' :: acc) rest2
          else if e = '/' then parseStrAux fuel ('/' :: acc) rest2
          else if e = 'b' then parseStrAux fuel ('\x08' :: acc) rest2
          else if e = 'f' then parseStrAux fuel ('\x0c' :: acc) rest2
          else if e = 'n' then parseStrAux fuel ('\n' :: acc) rest2
          else if e = 'r' then parseStrAux fuel ('\r' :: acc) rest2
          else if e = 't' then parseStrAux fuel ('\t' :: acc) rest2
          else if e = 'u' then
            match rest2 with
            | h1 :: h2 :: h3 :: h4 :: rest3 =>
              match hexVal h1, hexVal h2, hexVal h3, hexVal h4 with
              | some a, some b, some c2, some d =>
                parseStrAux fuel (Char.ofNat (((a * 16 + b) * 16 + c2) * 16 + d) :: acc) rest3
              | _, _, _, _ => none
            | _ => none
          else none
      else if c.toNat < 32 then none
      else parseStrAux fuel (c :: acc) rest

/-- JSON number: `-? (0 | [1-9][0-9]*) (. [0-9]+)? ([eE][+-]?[0-9]+)?`. -/
def parseJsonNumber (cs : List Char) : Option (ℚ × List Char) :=
  let (sgn, cs1) : ℚ × List Char :=
    match cs with
    | '-' :: r => (-1, r)
    | _ => (1, cs)
  let ip := cs1.takeWhile Char.isDigit
  let rest1 := cs1.dropWhile Char.isDigit
  if ip.isEmpty then none
  else if ip.length > 1 ∧ ip.head? = some '0' then none
  else
    let step2 : Option (ℚ × List Char) :=
      match rest1 with
      | '.' :: r =>
        let fd := r.takeWhile Char.isDigit
        if fd.isEmpty then none
        else some ((digitsToNat fd : ℚ) / (10 : ℚ) ^ fd.length, r.dropWhile Char.isDigit)
      | _ => some (0, rest1)
    match step2 with
    | none => none
    | some (fq, rest2) =>
      match rest2 with
      | e :: r =>
        if e = 'e' ∨ e = 'E' then
          let (esgn, r1) : ℤ × List Char :=
            match r with
            | '+' :: t => (1, t)
            | '-' :: t => (-1, t)
            | _ => (1, r)
          let ed := r1.takeWhile Char.isDigit
          if ed.isEmpty then none
          else
            some (sgn * ((digitsToNat ip : ℚ) + fq) * (10 : ℚ) ^ (esgn * (digitsToNat ed : ℤ)),
              r1.dropWhile Char.isDigit)
        else some (sgn * ((digitsToNat ip : ℚ) + fq), rest2)
      | [] => some (sgn * ((digitsToNat ip : ℚ) + fq), [])

mutual

/-- One JSON value, fuel-bounded recursive descent. -/
def parseVal : Nat → List Char → Option (JsValue × List Char)
  | 0, _ => none
  | fuel + 1, cs0 =>
    match skipWs cs0 with
    | [] => none
    | c :: rest =>
      if c = '\x7b' then
        match skipWs rest with
        | '\x7d' :: r2 => some (.obj [], r2)
        | _ => (parseMembers fuel rest).map (fun p => (.obj p.1, p.2))
      else if c = '[' then
        match skipWs rest with
        | ']' :: r2 => some (.arr [], r2)
        | _ => (parseItems fuel rest).map (fun p => (.arr p.1, p.2))
      else if c = '"' then
        (parseStrAux (fuel + 1) [] rest).map (fun p => (.str p.1, p.2))
      else if c = 't' then
        match rest with
        | 'r' :: 'u' :: 'e' :: r2 => some (.bool true, r2)
        | _ => none
      else if c = 'f' then
        match rest with
        | 'a' :: 'l' :: 's' :: 'e' :: r2 => some (.bool false, r2)
        | _ => none
      else if c = 'n' then
        match rest with
        | 'u' :: 'l' :: 'l' :: r2 => some (.null, r2)
        | _ => none
      else if c = '-' ∨ c.isDigit then
        (parseJsonNumber (c :: rest)).map (fun p => (.num p.1, p.2))
      else none

/-- Comma-separated array items, ending at `]`. -/
def parseItems : Nat → List Char → Option (List JsValue × List Char)
  | 0, _ => none
  | fuel + 1, cs =>
    match parseVal fuel cs with
    | none => none
    | some (v, r1) =>
      match skipWs r1 with
      | ',' :: r2 =>
        (parseItems fuel r2).map (fun p => (v :: p.1, p.2))
      | ']' :: r2 => some ([v], r2)
      | _ => none

/-- Comma-separated object members, ending at the closing brace. -/
def parseMembers : Nat → List Char → Option (List (String × JsValue) × List Char)
  | 0, _ => none
  | fuel + 1, cs =>
    match skipWs cs with
    | '"' :: r =>
      match parseStrAux (fuel + 1) [] r with
      | none => none
      | some (k, r1) =>
        match skipWs r1 with
        | ':' :: r2 =>
          match parseVal fuel r2 with
          | none => none
          | some (v, r3) =>
            match skipWs r3 with
            | ',' :: r4 => (parseMembers fuel r4).map (fun p => ((k, v) :: p.1, p.2))
            | '\x7d' :: r4 => some ([(k, v)], r4)
            | _ => none
        | _ => none
    | _ => none

end

/-- The embedding of `JSON.parse`: parse one value, then nothing but
whitespace may remain. -/
def jsonParse (s : String) : Option JsValue :=
  match parseVal (2 * s.length + 4) s.toList with
  | some (v, rest) => if (skipWs rest).isEmpty then some v else none
  | none => none

/-! ### safeParseJson (api/generate-meals.js, lines 150-162) -/

/-- Opening bracket class of the regex `[\{\[]`. -/
def isOpenBracket (c : Char) : Bool := c = '\x7b' || c = '['

/-- Closing bracket class of the regex `[\}\]]`. -/
def isCloseBracket (c : Char) : Bool := c = '\x7d' || c = ']'

/-- Index of the last character satisfying `p`. -/
def lastIdx (cs : List Char) (p : Char → Bool) : Option Nat :=
  (cs.reverse.findIdx? p).map (fun k => cs.length - 1 - k)

/-- The match of `text.match(/[\{\[][\s\S]*[\}\]]/)`: with a greedy
middle, the regex matches from the first opening bracket of the text to
the last closing bracket, provided the latter comes strictly after the
former.  The regex does not balance brackets. -/
def extractBracketSpan (text : String) : Option String :=
  let cs := text.toList
  match cs.findIdx? isOpenBracket, lastIdx cs isCloseBracket with
  | some i, some j =>
    if i < j then some (String.mk ((cs.drop i).take (j - i + 1))) else none
  | _, _ => none

/-- The function `safeParseJson` of api/generate-meals.js: reject falsy
input, try a direct `JSON.parse`, then try the bracketed regex match;
a second parse failure yields null. -/
def safeParseJson (text : String) : Option JsValue :=
  if text = "" then none
  else
    match jsonParse text with
    | some v => some v
    | none =>
      match extractBracketSpan text with
      | some sub => jsonParse sub
      | none => none

/-! ### Request canonicalization (recipeCacheKey, lines 194-202) -/

/-- The `String.prototype.trim` of JS, restricted to ASCII whitespace. -/
def jsTrim (s : String) : String :=
  String.mk (((s.toList.dropWhile isJsWs).reverse.dropWhile isJsWs).reverse)

/-- The `String.prototype.toLowerCase` of JS (ASCII case mapping). -/
def jsToLowerCase (s : String) : String := String.mk (s.toList.map Char.toLower)

/-- One ingredient as normalized by `recipeCacheKey`:
`String(s).trim().toLowerCase()`. -/
def normalizeIngredient (v : JsValue) : String :=
  jsToLowerCase (jsTrim (jsDisplay v))

/-- The canonicalized request serialized and digested by
`recipeCacheKey`.  `servings` is `Number(servings || 1)` and may be NaN
for a non-numeric input (`none`). -/
structure NormalizedRequest where
  ingredients : List String
  diet : String
  servings : Option ℚ
deriving Repr

/-- The raw key-relevant part of a request: the `ingredients`, `diet`
and `servings` fields destructured from the request body. -/
structure RecipeKeyInput where
  ingredients : List JsValue
  diet : JsValue
  servings : JsValue

/-- The canonicalization performed by `recipeCacheKey`: each ingredient
is stringified, trimmed and lower-cased and the list is sorted
(`Array.prototype.sort` compares strings lexicographically, which any
sorted rearrangement realizes); `diet` is lower-cased with `""` for a
falsy value; `servings` is numbered with `1` for a falsy value. -/
def normalizeRequest (r : RecipeKeyInput) : NormalizedRequest :=
  { ingredients := (r.ingredients.map normalizeIngredient).insertionSort (· ≤ ·)
    diet := jsToLowerCase (jsDisplay (jsOrElse (some r.diet) (.str "")))
    servings := jsToNumber (jsOrElse (some r.servings) (.num 1)) }

/-- `recipeCacheKey`: the canonicalized request is serialized by
`JSON.stringify` and hashed with SHA-256; both are deterministic
functions of the normalized request, abstracted here as the `digest`
parameter so every theorem holds for the actual composite. -/
def recipeCacheKey (digest : NormalizedRequest → String) (r : RecipeKeyInput) : String :=
  "recipe:" ++ digest (normalizeRequest r)

/-! ### Two-tier cache (memGet/memSet, upstashGet/upstashSet,
cacheGet/cacheSet; lines 94-147) -/

/-- An entry of the in-memory `Map`: `{ value, expiresAt }` with
`expiresAt` in milliseconds. -/
structure CacheEntry where
  value : JsValue
  expiresAt : Nat
deriving Repr

/-- The in-memory per-instance cache `inMemoryCache`. -/
def Store : Type := String → Option CacheEntry

/-- The empty in-memory cache. -/
def emptyStore : Store := fun _ => none

/-- One shared-tier (Upstash) entry: the stored value (which travels
through `JSON.stringify`/`JSON.parse`, the identity on this model of
JSON values) and an optional absolute expiry in milliseconds (Redis
`EXPIRE` is second-granular; the model keeps the exact instant). -/
def RedisKV : Type := String → Option (JsValue × Option Nat)

/-- The empty shared tier. -/
def emptyRedis : RedisKV := fun _ => none

/-- The mutable state the pipeline touches: the in-memory cache and the
optional shared tier (`none` when Upstash is not configured). -/
structure SysState where
  mem : Store
  redis : Option RedisKV

/-- `memGet`: absent or expired (strictly past `expiresAt`) entries
read as null; an expired entry is deleted (lazy eviction). -/
def memGet (mem : Store) (now : Nat) (key : String) : Option JsValue × Store :=
  match mem key with
  | none => (none, mem)
  | some e =>
    if now > e.expiresAt then
      (none, fun k => if k = key then none else mem k)
    else (some e.value, mem)

/-- `memSet` with ttl in seconds: `expiresAt = Date.now() + ttl*1000`. -/
def memSet (mem : Store) (now : Nat) (key : String) (v : JsValue) (ttl : Nat) : Store :=
  fun k => if k = key then some ⟨v, now + ttl * 1000⟩ else mem k

/-- `upstashGet`: read through the shared tier; an entry at or past its
expiry is absent (the Redis server has dropped it). -/
def upstashGet (r : RedisKV) (now : Nat) (key : String) : Option JsValue :=
  match r key with
  | some (v, some e) => if now ≥ e then none else some v
  | some (v, none) => some v
  | none => none

/-- `upstashSet`: `redis.set` then `if (ttl) redis.expire(key, ttl)` —
a zero (falsy) ttl stores without expiry. -/
def upstashSet (r : RedisKV) (now : Nat) (key : String) (v : JsValue) (ttl : Nat) : RedisKV :=
  fun k => if k = key then some (v, if ttl ≠ 0 then some (now + ttl * 1000) else none) else r k

/-- `cacheGet` with the configured default ttl `CACHE_TTL_SECONDS` used
when repopulating the local tier: local first (`if (m) return m` — only
a truthy local value is returned), then the shared tier (again only a
truthy value, `if (v)`), repopulating the local tier on a shared hit;
otherwise null. -/
def cacheGet (cacheTtl : Nat) (st : SysState) (now : Nat) (key : String) :
    Option JsValue × SysState :=
  let mg := memGet st.mem now key
  let fromShared : Option JsValue × SysState :=
    match st.redis with
    | some r =>
      match upstashGet r now key with
      | some v =>
        if truthy v then (some v, { st with mem := memSet mg.2 now key v cacheTtl })
        else (none, { st with mem := mg.2 })
      | none => (none, { st with mem := mg.2 })
    | none => (none, { st with mem := mg.2 })
  match mg.1 with
  | some v => if truthy v then (some v, { st with mem := mg.2 }) else fromShared
  | none => fromShared

/-- `cacheSet`: write the local tier unconditionally and the shared
tier when configured. -/
def cacheSet (st : SysState) (now : Nat) (key : String) (v : JsValue) (ttl : Nat) : SysState :=
  { mem := memSet st.mem now key v ttl
    redis := st.redis.map (fun r => upstashSet r now key v ttl) }

/-! ### Rate limiter (checkAndIncrementRateLimit, lines 174-192) -/

/-- Result of `checkAndIncrementRateLimit`: `{ ok, count }`. -/
structure RateResult where
  ok : Bool
  count : ℚ
deriving Repr, DecidableEq

/-- The rate-bucket key `rl:<identity>:<date>`.  The model renders the
UTC calendar day `new Date(now).toISOString().slice(0, 10)` as the day
number `now / 86400000`; this is injective on days exactly like the ISO
date string, so key collisions and key equality are preserved. -/
def rlKey (proxyKey : String) (now : Nat) : String :=
  "rl:" ++ (if proxyKey = "" then "anon" else proxyKey) ++ ":" ++ toString (now / 86400000)

/-- `redis.incr`: atomically increment the integer at `key`, starting
from 0 when the key is absent or expired; a fresh key has no expiry. -/
def redisIncr (r : RedisKV) (now : Nat) (key : String) : ℚ × RedisKV :=
  let fresh : ℚ × RedisKV := (1, fun k => if k = key then some (.num 1, none) else r k)
  match r key with
  | some (.num q, some e) =>
    if now ≥ e then fresh
    else (q + 1, fun k => if k = key then some (.num (q + 1), some e) else r k)
  | some (.num q, none) =>
    (q + 1, fun k => if k = key then some (.num (q + 1), none) else r k)
  | _ => fresh

/-- `redis.expire key secs`: set the expiry of an existing key. -/
def redisExpire (r : RedisKV) (now : Nat) (key : String) (secs : Nat) : RedisKV :=
  fun k =>
    if k = key then (r key).map (fun p => (p.1, some (now + secs * 1000))) else r k

/-- `checkAndIncrementRateLimit`.  When the shared tier is configured,
`redisFails` tells whether this call's `redis.incr` throws (network
unavailability); the catch branch then allows the request with
`count: 0`.  Otherwise a per-process counter in `inMemoryCache` is
kept: `const cur = memGet(key) || 0` (only numbers are ever stored at
rate keys, and a falsy stored `0` also reads as 0), `next = cur + 1`,
stored with a 24-hour ttl. -/
def checkAndIncrementRateLimit (limit : ℚ) (st : SysState) (redisFails : Bool)
    (proxyKey : String) (now : Nat) : RateResult × SysState :=
  let key := rlKey proxyKey now
  match st.redis with
  | some r =>
    if redisFails then ({ ok := true, count := 0 }, st)
    else
      let (cnt, r1) := redisIncr r now key
      let r2 := if cnt = 1 then redisExpire r1 now key 86400 else r1
      ({ ok := cnt ≤ limit, count := cnt }, { st with redis := some r2 })
  | none =>
    let (curOpt, mem1) := memGet st.mem now key
    let cur : ℚ :=
      match curOpt with
      | some (.num q) => q
      | _ => 0
    let next := cur + 1
    ({ ok := next ≤ limit, count := next },
      { st with mem := memSet mem1 now key (.num next) 86400 })

/-! ### Nutrient extraction and aggregation (nutrientKey, lines 164-172;
handler aggregation, lines 374-458) -/

/-- Substring containment (`String.prototype.includes`). -/
def hasSubstr (pat : List Char) : List Char → Bool
  | [] => pat.isEmpty
  | c :: rest => pat.isPrefixOf (c :: rest) || hasSubstr pat rest

/-- The function `nutrientKey`: falsy names give null, otherwise a
case-insensitive substring match in source order (calorie, protein,
fat, carb). -/
def nutrientKey (name : String) : Option String :=
  if name = "" then none
  else
    let n := (jsToLowerCase name).toList
    if hasSubstr ("calorie".toList) n then some "calories"
    else if hasSubstr ("protein".toList) n then some "protein"
    else if hasSubstr ("fat".toList) n then some "fat"
    else if hasSubstr ("carb".toList) n then some "carbs"
    else none

/-- The mutable accumulator `nutritionTotals`, all categories starting
at 0.  Its fields stay real numbers: each added amount passes through
`Number(...) || 0`, which turns NaN into 0. -/
structure RawTotals where
  calories : ℚ
  protein : ℚ
  carbs : ℚ
  fat : ℚ
deriving Repr, DecidableEq

/-- The all-zero accumulator. -/
def RawTotals.zero : RawTotals := ⟨0, 0, 0, 0⟩

/-- `nutritionTotals[key] = (nutritionTotals[key] || 0) + value`. -/
def RawTotals.addKey (t : RawTotals) (k : String) (v : ℚ) : RawTotals :=
  if k = "calories" then { t with calories := t.calories + v }
  else if k = "protein" then { t with protein := t.protein + v }
  else if k = "fat" then { t with fat := t.fat + v }
  else if k = "carbs" then { t with carbs := t.carbs + v }
  else t

/-- One step of the inner nutrient loop: classify the nutrient by
`nutrientKey(nutrient?.name || nutrient?.title || "")` and add
`Number(nutrient.amount) || 0` to the matched category.  A non-string
truthy name would make `name.toLowerCase()` throw in JS, aborting
enrichment for the recipe via the enclosing try; the model treats such
a nutrient as unrecognized. -/
def addOneNutrient (t : RawTotals) (n : JsValue) : RawTotals :=
  let nameJs := jsOrElse (jsField n "name") (jsOrElse (jsField n "title") (.str ""))
  let key : Option String :=
    match nameJs with
    | .str s => nutrientKey s
    | _ => none
  match key with
  | none => t
  | some k =>
    let amount : ℚ :=
      match jsField n "amount" with
      | some v => (jsToNumber v).getD 0
      | none => 0
    t.addKey k amount

/-- Whether an enrichment result is skipped by
`if (!info || info.error) continue`. -/
def infoSkipped : Option JsValue → Bool
  | none => true
  | some iv => !truthy iv || truthy (jsOrElse (jsField iv "error") .null)

/-- The nutrient list `info?.nutrition?.nutrients || []`.  A truthy
non-array there would make the `for..of` throw in JS (aborting
enrichment for the recipe); the model iterates only arrays. -/
def nutrientsOf (iv : JsValue) : List JsValue :=
  match jsFieldOpt (jsField iv "nutrition") "nutrients" with
  | some (.arr xs) => xs
  | _ => []

/-- The outer loop over one recipe's enrichment results: skipped
entries contribute nothing; the others contribute every recognized
nutrient. -/
def addInfoNutrients (t : RawTotals) (info : Option JsValue) : RawTotals :=
  if infoSkipped info then t
  else
    match info with
    | some iv => (nutrientsOf iv).foldl addOneNutrient t
    | none => t

/-- `anyTotal`: the sum over the four categories. -/
def RawTotals.anyTotal (t : RawTotals) : ℚ :=
  t.calories + t.protein + t.carbs + t.fat

/-- Rounded nutrition block attached to a recipe: totals and
per-serving values per category (`none` models NaN) and the source
tag. -/
structure NutOut where
  calories : Option ℤ
  protein : Option ℤ
  carbs : Option ℤ
  fat : Option ℤ
deriving Repr, DecidableEq

/-- The `r.nutrition` object built by the enrichment branch. -/
structure RecipeNutrition where
  totals : NutOut
  perServing : NutOut
  source : String
deriving Repr, DecidableEq

/-- The generator-supplied estimates used by the fallback of the
enrichment branch: `Number(r.estimatedCalories || r.calories || 0)` and
`Number(r.macros?.protein || 0)` etc. -/
def spoonEstimates (r : JsValue) : Option ℚ × Option ℚ × Option ℚ × Option ℚ :=
  (jsToNumber (jsOrElse (jsField r "estimatedCalories")
      (jsOrElse (jsField r "calories") (.num 0))),
   jsToNumber (jsOrElse (jsFieldOpt (jsField r "macros") "protein") (.num 0)),
   jsToNumber (jsOrElse (jsFieldOpt (jsField r "macros") "carbs") (.num 0)),
   jsToNumber (jsOrElse (jsFieldOpt (jsField r "macros") "fat") (.num 0)))

/-- `Math.round(x || 0)` for a possibly-NaN number: NaN (and 0) read as
0 before rounding.  This is the totals computation of lines 419-424. -/
def roundOr0 (x : Option ℚ) : ℤ := jsRound (x.getD 0)

/-- `Math.round(total / Math.max(1, servings))`: NaN servings give NaN
(`none`). -/
def perServingOf (total : ℤ) (servingsN : Option ℚ) : Option ℤ :=
  servingsN.map (fun s => jsRound ((total : ℚ) / max 1 s))

/-- The nutrition block computed by the enrichment branch for one
recipe (lines 391-432): fold the enrichment results when the parsed
ingredient list was a nonempty array (`entered`), tag the source
"spoonacular" when the accumulated total is strictly positive,
otherwise fall back to the generator estimates with source
"openai_estimate"; round totals with a `|| 0` NaN guard and divide by
`Math.max(1, servings)` for the per-serving block. -/
def aggregateNutrition (r : JsValue) (servingsJs : JsValue) (entered : Bool)
    (infos : List (Option JsValue)) : RecipeNutrition :=
  let sums := if entered then infos.foldl addInfoNutrients RawTotals.zero else RawTotals.zero
  let enriched := entered && decide (sums.anyTotal > 0)
  let est := spoonEstimates r
  let tc := if enriched then some sums.calories else est.1
  let tp := if enriched then some sums.protein else est.2.1
  let tcb := if enriched then some sums.carbs else est.2.2.1
  let tf := if enriched then some sums.fat else est.2.2.2
  let totals : NutOut :=
    ⟨some (roundOr0 tc), some (roundOr0 tp), some (roundOr0 tcb), some (roundOr0 tf)⟩
  let servingsN := jsToNumber servingsJs
  let perServing : NutOut :=
    ⟨perServingOf (roundOr0 tc) servingsN, perServingOf (roundOr0 tp) servingsN,
     perServingOf (roundOr0 tcb) servingsN, perServingOf (roundOr0 tf) servingsN⟩
  { totals := totals, perServing := perServing
    source := if enriched then "spoonacular" else "openai_estimate" }

/-- A recipe's nutrition in the response: either the recipe's own
pre-existing truthy `nutrition` field (kept verbatim by the
no-enrichment branch, `r.nutrition = r.nutrition || {...}`) or a
computed block. -/
inductive NutritionResult where
  | kept (v : JsValue)
  | computed (n : RecipeNutrition)
deriving Repr

/-- The no-enrichment branch (lines 441-458): keep a truthy
pre-existing `r.nutrition`; otherwise totals are
`Math.round(r.estimatedCalories || 0)` (and the macro fields), while
per-serving values divide the UNROUNDED raw estimates by
`Math.max(1, servings)` before rounding. -/
def attachEstimates (r : JsValue) (servingsJs : JsValue) : NutritionResult :=
  match jsField r "nutrition" with
  | some v =>
    if truthy v then .kept v else attachEstimatesComputed r servingsJs
  | none => attachEstimatesComputed r servingsJs
where
  attachEstimatesComputed (r : JsValue) (servingsJs : JsValue) : NutritionResult :=
    let eCal := jsToNumber (jsOrElse (jsField r "estimatedCalories") (.num 0))
    let ePro := jsToNumber (jsOrElse (jsFieldOpt (jsField r "macros") "protein") (.num 0))
    let eCarb := jsToNumber (jsOrElse (jsFieldOpt (jsField r "macros") "carbs") (.num 0))
    let eFat := jsToNumber (jsOrElse (jsFieldOpt (jsField r "macros") "fat") (.num 0))
    let servingsN := jsToNumber servingsJs
    let per (e : Option ℚ) : Option ℤ :=
      match e, servingsN with
      | some q, some s => some (jsRound (q / max 1 s))
      | _, _ => none
    .computed
      { totals := ⟨e_round eCal, e_round ePro, e_round eCarb, e_round eFat⟩
        perServing := ⟨per eCal, per ePro, per eCarb, per eFat⟩
        source := "openai_estimate" }
  e_round (x : Option ℚ) : Option ℤ := x.map jsRound

/-! ### Per-ingredient lookup (getIngredientInfo, lines 249-274) -/

/-- Outcome of one Spoonacular information fetch, as the network would
have produced it: an OK JSON body, a non-OK HTTP response, or a thrown
error (network failure / invalid body). -/
inductive FetchOutcome where
  | ok (json : JsValue)
  | httpErr (status : ℚ) (text : String)
  | threw (msg : String)

/-- The per-ingredient cache key `inginfo:id:amount:unit` (template
literal, so each part goes through `String(...)`). -/
def ingInfoKey (id amount unit : JsValue) : String :=
  "inginfo:" ++ jsDisplay id ++ ":" ++ jsDisplay amount ++ ":" ++ jsDisplay unit

/-- `getIngredientInfo`: null without a Spoonacular key; otherwise
cache-backed (only a truthy cached value short-circuits, which
`cacheGet` already guarantees).  A non-OK response is cached as
`{ error: true, status, text }` with a 60-second ttl, a thrown fetch as
`{ error: true, message }` with a 60-second ttl, and an OK body with
the long `CACHE_TTL_SECONDS` ttl. -/
def getIngredientInfo (spoonKey : Bool) (cacheTtl : Nat) (oracle : String → FetchOutcome)
    (st : SysState) (now : Nat) (id amount unit : JsValue) : Option JsValue × SysState :=
  if ¬ spoonKey then (none, st)
  else
    let key := ingInfoKey id amount unit
    let cg := cacheGet cacheTtl st now key
    match cg.1 with
    | some v => (some v, cg.2)
    | none =>
      match oracle key with
      | .ok json => (some json, cacheSet cg.2 now key json cacheTtl)
      | .httpErr status txt =>
        let fail : JsValue :=
          .obj [("error", .bool true), ("status", .num status), ("text", .str txt)]
        (some fail, cacheSet cg.2 now key fail 60)
      | .threw m =>
        let fail : JsValue := .obj [("error", .bool true), ("message", .str m)]
        (some fail, cacheSet cg.2 now key fail 60)

/-- Truthiness of a possibly-undefined value (`!!x?.k`). -/
def truthyOpt : Option JsValue → Bool
  | some v => truthy v
  | none => false

/-- One fan-out task (lines 383-389): a parsed ingredient with a falsy
`id` or `amount` resolves to null without a lookup; otherwise the unit
is `p.unit || p.unitShort || p.unitString || "unit"` and the lookup
runs. -/
def lookupTask (spoonKey : Bool) (cacheTtl : Nat) (oracle : String → FetchOutcome)
    (st : SysState) (now : Nat) (p : JsValue) : Option JsValue × SysState :=
  if !truthyOpt (jsField p "id") || !truthyOpt (jsField p "amount") then (none, st)
  else
    let unit := jsOrElse (jsField p "unit")
      (jsOrElse (jsField p "unitShort") (jsOrElse (jsField p "unitString") (.str "unit")))
    getIngredientInfo spoonKey cacheTtl oracle st now
      ((jsField p "id").getD .null) ((jsField p "amount").getD .null) unit

/-- The scatter/gather over one recipe's parsed ingredients
(`Promise.all` keeps input order; the model resolves the bounded-
concurrency schedule to the sequential one, which is observationally
equivalent for the per-key cache and the returned list). -/
def runLookups (spoonKey : Bool) (cacheTtl : Nat) (oracle : String → FetchOutcome)
    (now : Nat) : SysState → List JsValue → List (Option JsValue) × SysState
  | st, [] => ([], st)
  | st, p :: rest =>
    let (info, st1) := lookupTask spoonKey cacheTtl oracle st now p
    let (infos, st2) := runLookups spoonKey cacheTtl oracle now st1 rest
    (info :: infos, st2)

/-! ### The handler (lines 277-467) and requireProxyKey
(lib/utils.js) -/

/-- `requireProxyKey` from lib/utils.js: an unset (or empty, hence
falsy) `PROXY_SECRET` leaves the proxy open; otherwise a missing,
empty or mismatched `x-proxy-key` header is rejected with a 401. -/
def requireProxyKey (proxySecret : String) (headerKey : Option String) : Bool :=
  if proxySecret = "" then true
  else
    match headerKey with
    | none => false
    | some k => if k = "" then false else k = proxySecret

/-- An incoming HTTP request, reduced to the fields the handler
reads. -/
structure Req where
  method : String
  debugQuery : Bool
  xProxyKey : Option String
  xProxyToken : Option String
  authHeader : Option String
  body : Option JsValue

/-- The environment-derived configuration of one deployment.  `digest`
abstracts the deterministic `sha256(JSON.stringify(·))` fingerprint of
`recipeCacheKey`. -/
structure Config where
  mock : Bool
  openaiKeyPresent : Bool
  spoonacularKeyPresent : Bool
  proxySecret : String
  rateLimitPerDay : ℚ
  cacheTtlSeconds : Nat
  recipeCacheTtl : Nat
  digest : NormalizedRequest → String

/-- The behaviour of the external services during one run. -/
structure Externals where
  redisRlFails : Bool
  openaiResult : Option JsValue
  parseIngs : String → Option JsValue
  lookup : String → FetchOutcome

/-- All handler responses, by class. -/
inductive ApiResponse where
  | debugInfo
  | methodNotAllowed
  | unauthorized
  | badRequest
  | rateLimited (usedToday : ℚ)
  | mockResponse
  | cachedRecipes (v : JsValue)
  | configError
  | openaiCallFailed
  | formatError (raw : JsValue)
  | success (recipes : List OutRecipe) (cached : Bool)

/-- One recipe of a successful (non-cached) response: the generated
recipe object plus the fields the handler attaches
(`r.spoonacular`, `r.nutrition`, `r.source`). -/
structure OutRecipe where
  raw : JsValue
  spoonacularData : Option JsValue
  nutrition : NutritionResult
  source : JsValue

/-- Whether a response is a successful recipes response. -/
def ApiResponse.isSuccess : ApiResponse → Bool
  | .success _ _ => true
  | _ => false

/-- The body fields destructured at line 296, with their defaults
(`req.body || {}`, defaults apply only to missing fields). -/
structure BodyFields where
  ingredients : JsValue
  diet : JsValue
  calorieTarget : JsValue
  servings : JsValue

/-- Destructuring `const { ingredients = [], diet = "none",
calorieTarget = null, servings = 1 } = req.body || {}`. -/
def destructureBody (body : Option JsValue) : BodyFields :=
  let b := match body with
    | some v => if truthy v then v else .obj []
    | none => .obj []
  { ingredients := (jsField b "ingredients").getD (.arr [])
    diet := (jsField b "diet").getD (.str "none")
    calorieTarget := (jsField b "calorieTarget").getD .null
    servings := (jsField b "servings").getD (.num 1) }

/-- The validation `Array.isArray(ingredients) && ingredients.length >
0`. -/
def isValidIngredients : JsValue → Bool
  | .arr l => !l.isEmpty
  | _ => false

/-- A header value or the fallback when falsy/absent. -/
def headerOr (a : Option String) (b : String) : String :=
  match a with
  | some s => if s = "" then b else s
  | none => b

/-- The rate-limit identity of line 302:
`(x-proxy-key || x-proxy-token || authorization) || "anon"`. -/
def proxyIdentity (req : Req) : String :=
  headerOr req.xProxyKey (headerOr req.xProxyToken (headerOr req.authHeader "anon"))

/-- Optional-chaining array index `x?.[i]` (only arrays are indexable
in the model; the `choices` field of a chat completion is an array). -/
def jsIndex (v : Option JsValue) (i : Nat) : Option JsValue :=
  match v with
  | some (.arr xs) => xs.get? i
  | _ => none

/-- Line 364: `openaiData?.choices?.[0]?.message?.content ||
openaiData?.choices?.[0]?.text || null`. -/
def extractGenText (data : JsValue) : JsValue :=
  let c0 := jsIndex (jsField data "choices") 0
  jsOrElse (jsFieldOpt (jsFieldOpt c0 "message") "content")
    (jsOrElse (jsFieldOpt c0 "text") .null)

/-- Lines 365-366 condensed: the parsed recipes array, or `none` when
`!parsed || !Array.isArray(parsed.recipes)`.  The content of a chat
completion is a string; a non-string value here (never produced by the
API) would be coerced through ToString by `JSON.parse` in JS and cannot
produce a recipes object, so the model maps it to `none`. -/
def recipesFromText (textJs : JsValue) : Option (List JsValue) :=
  let parsed : Option JsValue :=
    match textJs with
    | .str s => safeParseJson s
    | _ => none
  match parsed with
  | some p =>
    if truthy p then
      match jsField p "recipes" with
      | some (.arr rs) => some rs
      | _ => none
    else none
  | none => none

/-- The ingredient line `` `${i.quantity || ""} ${i.name || ""}`.trim()
``. -/
def ingrLine (i : JsValue) : String :=
  jsTrim (jsDisplay (jsOrElse (jsField i "quantity") (.str "")) ++ " " ++
    jsDisplay (jsOrElse (jsField i "name") (.str "")))

/-- Line 380: `(r.ingredients || []).map(...).filter(Boolean)
.join("\n")`.  A truthy non-array `ingredients` would make `.map` throw
in JS (caught by the per-recipe try, leading to the estimates
fallback); the model iterates arrays only. -/
def buildIngrList (r : JsValue) : String :=
  let ingr : List JsValue :=
    match jsOrElse (jsField r "ingredients") (.arr []) with
    | .arr xs => xs
    | _ => []
  String.intercalate "\n" ((ingr.map ingrLine).filter (fun s => s ≠ ""))

/-- The enrichment of one recipe (lines 375-434): parse the ingredient
list, fan out the lookups when the parse produced a nonempty array,
aggregate, and attach `spoonacular`, `nutrition` and `source`. -/
def enrichRecipeStep (spoonKey : Bool) (cacheTtl : Nat) (oracle : String → FetchOutcome)
    (parseIngs : String → Option JsValue) (servingsJs : JsValue) (now : Nat)
    (st : SysState) (r : JsValue) : OutRecipe × SysState :=
  let pIngs := parseIngs (buildIngrList r)
  let (entered, ps) : Bool × List JsValue :=
    match pIngs with
    | some (.arr xs) => (!xs.isEmpty, xs)
    | _ => (false, [])
  let (infos, st1) :=
    if entered then runLookups spoonKey cacheTtl oracle now st ps else ([], st)
  let nut := aggregateNutrition r servingsJs entered infos
  ({ raw := r
     spoonacularData := if entered then pIngs else none
     nutrition := .computed nut
     source := jsOrElse (jsField r "source")
       (.str (if nut.source = "spoonacular" then "openai+spoonacular" else "openai")) }, st1)

/-- The sequential loop over all candidate recipes of the enrichment
branch. -/
def enrichLoop (spoonKey : Bool) (cacheTtl : Nat) (oracle : String → FetchOutcome)
    (parseIngs : String → Option JsValue) (servingsJs : JsValue) (now : Nat) :
    SysState → List JsValue → List OutRecipe × SysState
  | st, [] => ([], st)
  | st, r :: rest =>
    let (o, st1) := enrichRecipeStep spoonKey cacheTtl oracle parseIngs servingsJs now st r
    let (os, st2) := enrichLoop spoonKey cacheTtl oracle parseIngs servingsJs now st1 rest
    (o :: os, st2)

/-- One recipe of the no-enrichment branch (lines 441-458). -/
def estimateOut (servingsJs : JsValue) (r : JsValue) : OutRecipe :=
  { raw := r
    spoonacularData := none
    nutrition := attachEstimates r servingsJs
    source := jsOrElse (jsField r "source") (.str "openai") }

/-- Property write `r.k = w` on a JS object.  With last-occurrence
lookup an append realizes the update.  A primitive receiver would throw
in strict mode; recipes are objects in every reachable run. -/
def jsSetField (v : JsValue) (k : String) (w : JsValue) : JsValue :=
  match v with
  | .obj kvs => .obj (kvs ++ [(k, w)])
  | other => other

/-- A nutrition block as it appears in the serialized response / cache
payload (NaN serializes to null under `JSON.stringify`). -/
def encodeNutOut (n : NutOut) : JsValue :=
  let enc : Option ℤ → JsValue := fun o =>
    match o with
    | some z => .num (z : ℚ)
    | none => .null
  .obj [("calories", enc n.calories), ("protein", enc n.protein),
        ("carbs", enc n.carbs), ("fat", enc n.fat)]

/-- Serialize an attached nutrition result. -/
def encodeNutrition : NutritionResult → JsValue
  | .kept v => v
  | .computed n =>
    .obj [("totals", encodeNutOut n.totals), ("perServing", encodeNutOut n.perServing),
          ("source", .str n.source)]

/-- The recipe object as stored in the recipe-level cache: the raw
recipe with the attached fields. -/
def encodeOut (o : OutRecipe) : JsValue :=
  let v1 := match o.spoonacularData with
    | some sv => jsSetField o.raw "spoonacular" sv
    | none => o.raw
  jsSetField (jsSetField v1 "nutrition" (encodeNutrition o.nutrition)) "source" o.source

/-- The cached recipe list. -/
def encodeOuts (os : List OutRecipe) : JsValue := .arr (os.map encodeOut)

/-- The elements of the validated ingredients array (`[]` for the
non-array case, which validation has already excluded). -/
def ingredientElems : JsValue → List JsValue
  | .arr xs => xs
  | _ => []

/-- The embedded handler, lines 277-467: debug passthrough, method
check, proxy-key check, body validation, rate limiting, mock mode,
recipe-level cache, generation, format check, enrichment or estimate
attachment, recipe-level cache write. -/
def handler (cfg : Config) (ext : Externals) (st : SysState) (now : Nat) (req : Req) :
    ApiResponse × SysState :=
  if req.method = "GET" ∧ req.debugQuery then (.debugInfo, st)
  else if req.method ≠ "POST" then (.methodNotAllowed, st)
  else if ¬ requireProxyKey cfg.proxySecret req.xProxyKey then (.unauthorized, st)
  else
    let bf := destructureBody req.body
    if ¬ isValidIngredients bf.ingredients then (.badRequest, st)
    else
      let rlc :=
        checkAndIncrementRateLimit cfg.rateLimitPerDay st ext.redisRlFails (proxyIdentity req)
          now
      if ¬ rlc.1.ok then (.rateLimited rlc.1.count, rlc.2)
      else if cfg.mock then (.mockResponse, rlc.2)
      else
        let rKey :=
          recipeCacheKey cfg.digest ⟨ingredientElems bf.ingredients, bf.diet, bf.servings⟩
        let cg := cacheGet cfg.cacheTtlSeconds rlc.2 now rKey
        match cg.1 with
        | some v => (.cachedRecipes v, cg.2)
        | none =>
          if ¬ cfg.openaiKeyPresent then (.configError, cg.2)
          else
            match ext.openaiResult with
            | none => (.openaiCallFailed, cg.2)
            | some data =>
              let textJs := extractGenText data
              match recipesFromText textJs with
              | none => (.formatError textJs, cg.2)
              | some rs =>
                if cfg.spoonacularKeyPresent then
                  let el := enrichLoop cfg.spoonacularKeyPresent cfg.cacheTtlSeconds
                    ext.lookup ext.parseIngs bf.servings now cg.2 rs
                  (.success el.1 false,
                    cacheSet el.2 now rKey (encodeOuts el.1) cfg.recipeCacheTtl)
                else
                  let outs := rs.map (estimateOut bf.servings)
                  (.success outs false,
                    cacheSet cg.2 now rKey (encodeOuts outs) cfg.recipeCacheTtl)

/-! ## Theorems -/

/-- Permutation-equal lists of strings have the same insertion sort
(sortedness plus antisymmetry pin the result down uniquely, so any
correct sort — in particular `Array.prototype.sort` — agrees). -/
theorem insertionSort_eq_of_perm {l1 l2 : List String} (h : l1.Perm l2) :
    l1.insertionSort (· ≤ ·) = l2.insertionSort (· ≤ ·) :=
  List.eq_of_perm_of_sorted
    ((List.perm_insertionSort _ l1).trans (h.trans (List.perm_insertionSort _ l2).symm))
    (List.sorted_insertionSort _ l1) (List.sorted_insertionSort _ l2)

/-- A string diet survives the `diet || ""` guard unchanged. -/
theorem jsOrElse_str_empty (d : String) :
    jsDisplay (jsOrElse (some (.str d)) (.str "")) = d := by
  by_cases h : d = ""
  · subst h; simp [jsOrElse, truthy, jsDisplay]
  · simp [jsOrElse, truthy, h, jsDisplay]

/-- C1: request canonicalization is order-, case- and whitespace-
invariant: two requests whose ingredient lists agree as multisets after
trimming and lower-casing, whose diet strings agree case-insensitively
and whose servings agree receive the identical cache key from
`recipeCacheKey`, for every digest function (hence in particular for
the sha256-of-stringify the code uses).  `recipeCacheKey` is a total
Lean function of the request, hence pure and deterministic. -/
theorem recipeCacheKey_canonical (digest : NormalizedRequest → String)
    (ing1 ing2 : List String) (d1 d2 : String) (q1 q2 : ℚ)
    (hing : (ing1.map (fun s => jsToLowerCase (jsTrim s))).Perm
            (ing2.map (fun s => jsToLowerCase (jsTrim s))))
    (hdiet : jsToLowerCase d1 = jsToLowerCase d2)
    (hserv : q1 = q2) :
    recipeCacheKey digest ⟨ing1.map .str, .str d1, .num q1⟩ =
      recipeCacheKey digest ⟨ing2.map .str, .str d2, .num q2⟩ := by
  subst hserv
  have hmap : ∀ ing : List String,
      List.map normalizeIngredient (ing.map JsValue.str) =
        ing.map (fun s => jsToLowerCase (jsTrim s)) := by
    intro ing
    rw [List.map_map]
    refine List.map_congr_left fun s _ => ?_
    simp [Function.comp, normalizeIngredient, jsDisplay]
  have hnorm : normalizeRequest ⟨ing1.map .str, .str d1, .num q1⟩ =
      normalizeRequest ⟨ing2.map .str, .str d2, .num q1⟩ := by
    unfold normalizeRequest
    simp only [hmap, jsOrElse_str_empty]
    exact congrArg₂ (fun a b => NormalizedRequest.mk a b _)
      (insertionSort_eq_of_perm hing) hdiet
  unfold recipeCacheKey
  rw [hnorm]

/-- C1 witness: the spec's example pair, `["Rice","Beans"]` against
`["beans"," rice "]` with equivalent diets and equal servings, mapped
through a concrete digest. -/
theorem recipeCacheKey_canonical_witness :
    (List.map (fun s => jsToLowerCase (jsTrim s)) ["Rice", "Beans"]).Perm
      (List.map (fun s => jsToLowerCase (jsTrim s)) ["beans", " rice "]) ∧
    jsToLowerCase "None" = jsToLowerCase "none" ∧
    recipeCacheKey (fun n => String.intercalate "," n.ingredients)
        ⟨["Rice", "Beans"].map .str, .str "None", .num 2⟩ =
      recipeCacheKey (fun n => String.intercalate "," n.ingredients)
        ⟨["beans", " rice "].map .str, .str "none", .num 2⟩ := by
  have hperm : (List.map (fun s => jsToLowerCase (jsTrim s)) ["Rice", "Beans"]).Perm
      (List.map (fun s => jsToLowerCase (jsTrim s)) ["beans", " rice "]) := by
    have h1 : List.map (fun s => jsToLowerCase (jsTrim s)) ["Rice", "Beans"] =
        ["rice", "beans"] := by decide
    have h2 : List.map (fun s => jsToLowerCase (jsTrim s)) ["beans", " rice "] =
        ["beans", "rice"] := by decide
    rw [h1, h2]
    exact List.Perm.swap "beans" "rice" []
  exact ⟨hperm, by decide,
    recipeCacheKey_canonical _ _ _ _ _ _ _ hperm (by decide) rfl⟩

/-- C5 (amended): `safeParseJson` first attempts a direct parse of the
whole text; on failure it parses the span reaching from the first
opening bracket to the last closing bracket of the text (the greedy
regex match, which performs no balancing); when that also fails, or no
such span exists, it returns null. -/
theorem safeParseJson_strategy (s : String) :
    (∀ v, jsonParse s = some v → safeParseJson s = some v) ∧
    (jsonParse s = none → ∀ sub, extractBracketSpan s = some sub →
      safeParseJson s = jsonParse sub) ∧
    (jsonParse s = none → extractBracketSpan s = none → safeParseJson s = none) := by
  by_cases hs : s = ""
  · subst hs
    refine ⟨?_, ?_, ?_⟩
    · intro v hv
      rw [show jsonParse "" = none from rfl] at hv
      exact Option.noConfusion hv
    · intro _ sub hsub
      rw [show extractBracketSpan "" = none from rfl] at hsub
      exact Option.noConfusion hsub
    · intro _ _
      rfl
  · unfold safeParseJson
    rw [if_neg hs]
    refine ⟨?_, ?_, ?_⟩
    · intro v hv; rw [hv]
    · intro h sub hsub; rw [h, hsub]
    · intro h hsub; rw [h, hsub]

/-- C5 witness: a text whose direct parse fails and whose bracket span
parses; `safeParseJson` returns the parse of the span. -/
theorem safeParseJson_strategy_witness :
    jsonParse "x [3]" = none ∧ extractBracketSpan "x [3]" = some "[3]" ∧
    safeParseJson "x [3]" = jsonParse "[3]" :=
  ⟨rfl, rfl, (safeParseJson_strategy "x [3]").2.1 rfl "[3]" rfl⟩

/-- C5 counterexample: `"note [1, 2] ]"` contains the parsable balanced
bracketed substring `"[1, 2]"`, yet `safeParseJson` returns null,
because the regex span runs greedily from the first `[` to the LAST
`]` (`"[1, 2] ]"`, unbalanced): the fallback is not a largest-balanced-
substring search, refuting the claim at this input. -/
theorem safeParseJson_balanced_counterexample :
    safeParseJson "note [1, 2] ]" = none ∧
    extractBracketSpan "note [1, 2] ]" = some "[1, 2] ]" ∧
    (jsonParse "[1, 2]").isSome = true :=
  ⟨rfl, rfl, rfl⟩

/-- C6 counterexample: storing the falsy value `0` and reading it back
1 second later — well within the 10-second ttl — yields absent, because
`cacheGet` guards its returns with JS truthiness (`if (m) return m`),
refuting "for every value v" at this input. -/
theorem cacheGet_falsy_counterexample :
    (cacheGet 86400 (cacheSet ⟨emptyStore, none⟩ 0 "k" (.num 0) 10) 1000 "k").1 = none ∧
    1000 < 0 + 10 * 1000 :=
  ⟨rfl, by decide⟩

/-- C6 (amended): after `set(k, v, ttl)` with a positive ttl, `get(k)`
returns `v` at any instant strictly before the ttl elapses provided `v`
is truthy (a falsy stored value is treated as absent by the two-tier
`cacheGet`); and for every value, once `now > expiresAt` the entry is
reported absent and is lazily evicted from the local tier. -/
theorem cache_roundtrip (cacheTtl : Nat) (st : SysState) (now t : Nat) (k : String)
    (v : JsValue) (ttl : Nat) (hpos : 0 < ttl) :
    (truthy v = true → t < now + ttl * 1000 →
      (cacheGet cacheTtl (cacheSet st now k v ttl) t k).1 = some v) ∧
    (now + ttl * 1000 < t →
      (cacheGet cacheTtl (cacheSet st now k v ttl) t k).1 = none ∧
      (cacheGet cacheTtl (cacheSet st now k v ttl) t k).2.mem k = none) := by
  constructor
  · intro htr hlt
    have hnotexp : ¬ (t > now + ttl * 1000) := by omega
    simp [cacheGet, cacheSet, memGet, memSet, hnotexp, htr]
  · intro hgt
    have hne : ttl ≠ 0 := by omega
    have hge : t ≥ now + ttl * 1000 := Nat.le_of_lt hgt
    cases hr : st.redis with
    | none =>
      constructor <;>
        simp [cacheGet, cacheSet, memGet, memSet, upstashGet, upstashSet, hr, hgt]
    | some r0 =>
      constructor <;>
        simp [cacheGet, cacheSet, memGet, memSet, upstashGet, upstashSet, hr, hgt, hne, hge]

/-- C6 witness: a truthy string value round-trips before expiry and is
absent (and evicted) after expiry. -/
theorem cache_roundtrip_witness :
    truthy (.str "v") = true ∧ (1000 : Nat) < 0 + 10 * 1000 ∧ 0 + 10 * 1000 < 20000 ∧
    (cacheGet 86400 (cacheSet ⟨emptyStore, none⟩ 0 "k" (.str "v") 10) 1000 "k").1 =
      some (.str "v") ∧
    (cacheGet 86400 (cacheSet ⟨emptyStore, none⟩ 0 "k" (.str "v") 10) 20000 "k").1 = none :=
  ⟨rfl, by decide, by decide,
    (cache_roundtrip 86400 ⟨emptyStore, none⟩ 0 1000 "k" (.str "v") 10 (by decide)).1
      rfl (by decide),
    ((cache_roundtrip 86400 ⟨emptyStore, none⟩ 0 20000 "k" (.str "v") 10 (by decide)).2
      (by decide)).1⟩

/-! ### Rate limiter iteration (C2, C9) -/

/-- Iterated limiter calls at the given instants, with no shared-tier
failure. -/
def rlRun (limit : ℚ) (proxyKey : String) : SysState → List Nat → List RateResult × SysState
  | st, [] => ([], st)
  | st, t :: ts =>
    let (res, st1) := checkAndIncrementRateLimit limit st false proxyKey t
    let (ress, st2) := rlRun limit proxyKey st1 ts
    (res :: ress, st2)

/-- Reference behaviour of a daily bucket already holding `start`: the
i-th further call returns count `start+i+1`, allowed iff that count is
at most the limit. -/
def rlExpected (limit : ℚ) (start n : Nat) : List RateResult :=
  (List.range n).map
    (fun i => ⟨decide (((start + i + 1 : ℕ) : ℚ) ≤ limit), ((start + i + 1 : ℕ) : ℚ)⟩)

/-- Unfolding `rlExpected` one call at a time. -/
theorem rlExpected_succ (limit : ℚ) (start n : Nat) :
    rlExpected limit start (n + 1) =
      ⟨decide (((start + 1 : ℕ) : ℚ) ≤ limit), ((start + 1 : ℕ) : ℚ)⟩ ::
        rlExpected limit (start + 1) n := by
  simp only [rlExpected, List.range_succ_eq_map, List.map_cons, List.map_map]
  refine congrArg₂ List.cons (by norm_num) ?_
  refine List.map_congr_left fun i _ => ?_
  have h : start + (i + 1) + 1 = start + 1 + i + 1 := by omega
  simp [Function.comp, h]

/-- Invariant of the in-memory daily bucket during one UTC day `d`: the
key is absent (count 0) or holds the count with an expiry past the end
of the day. -/
def rlMemInv (mem : Store) (key : String) (d c : Nat) : Prop :=
  (c = 0 ∧ mem key = none) ∨
    (∃ e, mem key = some ⟨.num (c : ℚ), e⟩ ∧ (d + 1) * 86400000 ≤ e)

/-- Invariant of the shared-tier daily bucket during one UTC day. -/
def rlRedisInv (r : RedisKV) (key : String) (d c : Nat) : Prop :=
  (c = 0 ∧ r key = none) ∨
    (∃ e, r key = some (.num (c : ℚ), some e) ∧ (d + 1) * 86400000 ≤ e ∧ 1 ≤ c)

/-- Bounds of an instant lying in UTC day `d`. -/
theorem day_bounds {t d : Nat} (hd : t / 86400000 = d) :
    d * 86400000 ≤ t ∧ t < (d + 1) * 86400000 := by
  have hmod := Nat.mod_add_div t 86400000
  have hlt := Nat.mod_lt t (show 0 < 86400000 by norm_num)
  rw [hd] at hmod
  omega

/-- All calls of one day address the same bucket key. -/
theorem rlKey_of_day {t d : Nat} (pk : String) (hd : t / 86400000 = d) :
    rlKey pk t = rlKey pk (d * 86400000) := by
  unfold rlKey
  rw [hd, Nat.mul_div_cancel d (show 0 < 86400000 by norm_num)]


/-- One in-memory limiter call during day `d`: the count advances by
one, is stored with a 24-hour ttl, and the day invariant is
preserved. -/
theorem rl_step_mem (limit : ℚ) (pk : String) (t d c : Nat) (mem0 : Store)
    (hd : t / 86400000 = d)
    (hinv : rlMemInv mem0 (rlKey pk (d * 86400000)) d c) :
    ∃ mem1, checkAndIncrementRateLimit limit ⟨mem0, none⟩ false pk t =
        (⟨decide (((c + 1 : ℕ) : ℚ) ≤ limit), ((c + 1 : ℕ) : ℚ)⟩, ⟨mem1, none⟩) ∧
      rlMemInv mem1 (rlKey pk (d * 86400000)) d (c + 1) := by
  have hkey := rlKey_of_day pk hd
  have hb := day_bounds hd
  rcases hinv with ⟨hc, habs⟩ | ⟨e, hent, he⟩
  · subst hc
    have h1 : ((0 + 1 : ℕ) : ℚ) = (0 : ℚ) + 1 := by norm_num
    refine ⟨memSet mem0 t (rlKey pk (d * 86400000)) (.num ((0 : ℚ) + 1)) 86400, ?_, ?_⟩
    · rw [h1]
      simp only [checkAndIncrementRateLimit, memGet, hkey, habs]
    · refine Or.inr ⟨t + 86400 * 1000, ?_, by omega⟩
      rw [h1]
      simp [memSet]
  · have h1 : ((c + 1 : ℕ) : ℚ) = (c : ℚ) + 1 := by push_cast; ring
    have hnotexp : ¬ (t > e) := by omega
    refine ⟨memSet mem0 t (rlKey pk (d * 86400000)) (.num ((c : ℚ) + 1)) 86400, ?_, ?_⟩
    · rw [h1]
      simp only [checkAndIncrementRateLimit, memGet, hkey, hent, hnotexp, if_neg,
        not_false_iff]
    · refine Or.inr ⟨t + 86400 * 1000, ?_, by omega⟩
      rw [h1]
      simp [memSet]

/-- One shared-tier limiter call during day `d` (no failure): the
counter advances atomically and the day invariant is preserved. -/
theorem rl_step_redis (limit : ℚ) (pk : String) (t d c : Nat) (r0 : RedisKV) (mem0 : Store)
    (hd : t / 86400000 = d)
    (hinv : rlRedisInv r0 (rlKey pk (d * 86400000)) d c) :
    ∃ r1, checkAndIncrementRateLimit limit ⟨mem0, some r0⟩ false pk t =
        (⟨decide (((c + 1 : ℕ) : ℚ) ≤ limit), ((c + 1 : ℕ) : ℚ)⟩, ⟨mem0, some r1⟩) ∧
      rlRedisInv r1 (rlKey pk (d * 86400000)) d (c + 1) := by
  have hkey := rlKey_of_day pk hd
  have hb := day_bounds hd
  rcases hinv with ⟨hc, habs⟩ | ⟨e, hent, he, hc1⟩
  · subst hc
    have h1 : ((0 + 1 : ℕ) : ℚ) = (1 : ℚ) := by norm_num
    refine ⟨redisExpire (fun k => if k = rlKey pk (d * 86400000) then
        some (.num 1, none) else r0 k) t (rlKey pk (d * 86400000)) 86400, ?_, ?_⟩
    · rw [h1]
      simp only [checkAndIncrementRateLimit, redisIncr, hkey, habs]
      simp
    · refine Or.inr ⟨t + 86400 * 1000, ?_, by omega, le_refl 1⟩
      rw [h1]
      simp [redisExpire]
  · have h1 : ((c + 1 : ℕ) : ℚ) = (c : ℚ) + 1 := by push_cast; ring
    have hnotexp : ¬ (t ≥ e) := by omega
    have hne1 : ¬ ((c : ℚ) + 1 = 1) := by
      intro h
      have hc0 : (c : ℚ) = 0 := by linarith
      have : c = 0 := by exact_mod_cast hc0
      omega
    refine ⟨fun k => if k = rlKey pk (d * 86400000) then
        some (.num ((c : ℚ) + 1), some e) else r0 k, ?_, ?_⟩
    · rw [h1]
      simp only [checkAndIncrementRateLimit, redisIncr, hkey, hent, hnotexp, if_neg,
        not_false_iff, hne1]
      simp
    · refine Or.inr ⟨e, ?_, he, by omega⟩
      rw [h1]
      simp

/-- In-memory branch induction: starting from a valid bucket holding
`c`, same-day calls produce counts `c+1, c+2, …`, each allowed iff at
most the limit. -/
theorem rlRun_mem_aux (limit : ℚ) (pk : String) (d : Nat) (times : List Nat) :
    ∀ (c : Nat) (mem0 : Store), (∀ t ∈ times, t / 86400000 = d) →
    rlMemInv mem0 (rlKey pk (d * 86400000)) d c →
    (rlRun limit pk ⟨mem0, none⟩ times).1 = rlExpected limit c times.length := by
  induction times with
  | nil => intro c mem0 _ _; rfl
  | cons t ts ih =>
    intro c mem0 hday hinv
    obtain ⟨mem1, hstep, hinv2⟩ :=
      rl_step_mem limit pk t d c mem0 (hday t (List.mem_cons_self t ts)) hinv
    have htail := ih (c + 1) mem1 (fun u hu => hday u (List.mem_cons_of_mem t hu)) hinv2
    show ((checkAndIncrementRateLimit limit ⟨mem0, none⟩ false pk t).1 ::
        (rlRun limit pk (checkAndIncrementRateLimit limit ⟨mem0, none⟩ false pk t).2 ts).1) =
      rlExpected limit c (ts.length + 1)
    rw [hstep, rlExpected_succ]
    exact congrArg₂ List.cons rfl htail

/-- Shared-tier branch induction: `redis.incr` counts identically, the
24-hour expiry being attached on the first increment. -/
theorem rlRun_redis_aux (limit : ℚ) (pk : String) (d : Nat) (times : List Nat) :
    ∀ (c : Nat) (r0 : RedisKV) (mem0 : Store), (∀ t ∈ times, t / 86400000 = d) →
    rlRedisInv r0 (rlKey pk (d * 86400000)) d c →
    (rlRun limit pk ⟨mem0, some r0⟩ times).1 = rlExpected limit c times.length := by
  induction times with
  | nil => intro c r0 mem0 _ _; rfl
  | cons t ts ih =>
    intro c r0 mem0 hday hinv
    obtain ⟨r1, hstep, hinv2⟩ :=
      rl_step_redis limit pk t d c r0 mem0 (hday t (List.mem_cons_self t ts)) hinv
    have htail := ih (c + 1) r1 mem0 (fun u hu => hday u (List.mem_cons_of_mem t hu)) hinv2
    show ((checkAndIncrementRateLimit limit ⟨mem0, some r0⟩ false pk t).1 ::
        (rlRun limit pk (checkAndIncrementRateLimit limit ⟨mem0, some r0⟩ false pk t).2
          ts).1) =
      rlExpected limit c (ts.length + 1)
    rw [hstep, rlExpected_succ]
    exact congrArg₂ List.cons rfl htail

/-- C2: for every identity, every daily limit and every sequence of
calls within one UTC calendar day starting from a fresh bucket, the
i-th call (0-based) of `checkAndIncrementRateLimit` yields count `i+1`
and `allowed = (i+1 ≤ limit)` — so each of the first `limit` calls is
allowed, the `(limit+1)`-th call of the day is denied, and throughout,
allowed holds iff the post-increment counter is at most the daily
limit.  This holds both for the in-memory branch (no shared tier) and
for the `redis.incr` branch (shared tier configured and reachable). -/
theorem checkAndIncrementRateLimit_daily (limit : ℚ) (pk : String) (d : Nat)
    (times : List Nat) (hday : ∀ t ∈ times, t / 86400000 = d) :
    (rlRun limit pk ⟨emptyStore, none⟩ times).1 = rlExpected limit 0 times.length ∧
    (rlRun limit pk ⟨emptyStore, some emptyRedis⟩ times).1 =
      rlExpected limit 0 times.length :=
  ⟨rlRun_mem_aux limit pk d times 0 emptyStore hday (Or.inl ⟨rfl, rfl⟩),
   rlRun_redis_aux limit pk d times 0 emptyRedis emptyStore hday (Or.inl ⟨rfl, rfl⟩)⟩

/-- C2 witness: three same-day calls under limit 2 — allowed, allowed,
denied, with counts 1, 2, 3 — in both configurations. -/
theorem checkAndIncrementRateLimit_daily_witness :
    (rlRun 2 "k" ⟨emptyStore, none⟩ [10, 20, 30]).1 =
      [⟨true, 1⟩, ⟨true, 2⟩, ⟨false, 3⟩] ∧
    (rlRun 2 "k" ⟨emptyStore, some emptyRedis⟩ [10, 20, 30]).1 =
      [⟨true, 1⟩, ⟨true, 2⟩, ⟨false, 3⟩] := by
  have h := checkAndIncrementRateLimit_daily 2 "k" 0 [10, 20, 30] (by decide)
  have he : rlExpected 2 0 3 = [⟨true, 1⟩, ⟨true, 2⟩, ⟨false, 3⟩] := by
    simp only [rlExpected, List.range_succ, List.range_zero, List.map_append, List.map_cons,
      List.map_nil, List.nil_append, List.cons_append]
    norm_num
  exact ⟨h.1.trans he, h.2.trans he⟩

/-- The current local counter value the in-memory limiter branch reads
(`memGet(key) || 0`; only numbers are stored at rate keys). -/
def localRlCount (mem : Store) (now : Nat) (key : String) : ℚ :=
  match (memGet mem now key).1 with
  | some (.num q) => q
  | _ => 0

/-- C9 (amended): when the shared tier is NOT CONFIGURED the limiter
degrades to the local in-process counter — each call still counts (the
incremented value is stored locally with a 24-hour ttl) and still
enforces the daily limit (`ok = (count ≤ limit)`).  When a CONFIGURED
shared tier fails at call time, however, the code fails open: the call
is allowed with `count: 0` and nothing is recorded anywhere.  In both
cases the limiter returns a result (it never blocks or retries). -/
theorem rateLimit_degraded (limit : ℚ) (st : SysState) (pk : String) (now : Nat) :
    (st.redis = none →
      (checkAndIncrementRateLimit limit st false pk now).1.count =
        localRlCount st.mem now (rlKey pk now) + 1 ∧
      (checkAndIncrementRateLimit limit st false pk now).1.ok =
        decide (localRlCount st.mem now (rlKey pk now) + 1 ≤ limit) ∧
      (checkAndIncrementRateLimit limit st false pk now).2.mem (rlKey pk now) =
        some ⟨.num (localRlCount st.mem now (rlKey pk now) + 1), now + 86400 * 1000⟩) ∧
    (∀ r0, st.redis = some r0 →
      checkAndIncrementRateLimit limit st true pk now = (⟨true, 0⟩, st)) := by
  constructor
  · intro hr
    refine ⟨?_, ?_, ?_⟩ <;>
      simp [checkAndIncrementRateLimit, hr, localRlCount, memSet]
  · intro r0 hr
    simp [checkAndIncrementRateLimit, hr]

/-- C9 witness: a concrete local-mode call counts to 1, and a concrete
failing shared-tier call is allowed with count 0 and an unchanged
state. -/
theorem rateLimit_degraded_witness :
    (⟨emptyStore, (none : Option RedisKV)⟩ : SysState).redis = none ∧
    (checkAndIncrementRateLimit 5 ⟨emptyStore, none⟩ false "k" 0).1.count =
      localRlCount emptyStore 0 (rlKey "k" 0) + 1 ∧
    (checkAndIncrementRateLimit 5 ⟨emptyStore, some emptyRedis⟩ true "k" 0) =
      (⟨true, 0⟩, ⟨emptyStore, some emptyRedis⟩) :=
  ⟨rfl, ((rateLimit_degraded 5 ⟨emptyStore, none⟩ "k" 0).1 rfl).1,
    (rateLimit_degraded 5 ⟨emptyStore, some emptyRedis⟩ "k" 0).2 emptyRedis rfl⟩

/-- C9 counterexample: with the shared tier configured but failing and
a daily limit of 0, the call is allowed (`ok = true`, count 0) and no
counter — local or shared — records it: the limiter does NOT degrade to
a local-only counter that still counts and enforces the limit, as the
claim states. -/
theorem rateLimit_sharedFailure_counterexample :
    (checkAndIncrementRateLimit 0 ⟨emptyStore, some emptyRedis⟩ true "k" 0).1 =
      ⟨true, 0⟩ ∧
    (checkAndIncrementRateLimit 0 ⟨emptyStore, some emptyRedis⟩ true "k" 0).2.mem
      (rlKey "k" 0) = none ∧
    ((checkAndIncrementRateLimit 0 ⟨emptyStore, some emptyRedis⟩ true "k" 0).2.redis.map
      (fun r => r (rlKey "k" 0))) = some none :=
  ⟨rfl, rfl, rfl⟩

/-- C3: in the aggregation step of the enrichment branch, if the
accumulated total across the four categories is exactly zero after
folding all enrichment results, the totals come from the
generator-supplied `estimatedCalories`/`macros` fields and the source
tag is the code's "openai_estimate" (the spec's "estimated"); if the
accumulated total is strictly positive, the rounded enriched sums are
used and the tag is "spoonacular" (the spec's "enriched"). -/
theorem aggregateNutrition_fallback (r : JsValue) (servingsJs : JsValue)
    (infos : List (Option JsValue)) :
    ((infos.foldl addInfoNutrients RawTotals.zero).anyTotal = 0 →
      (aggregateNutrition r servingsJs true infos).source = "openai_estimate" ∧
      (aggregateNutrition r servingsJs true infos).totals =
        ⟨some (roundOr0 (spoonEstimates r).1), some (roundOr0 (spoonEstimates r).2.1),
         some (roundOr0 (spoonEstimates r).2.2.1), some (roundOr0 (spoonEstimates r).2.2.2)⟩) ∧
    ((infos.foldl addInfoNutrients RawTotals.zero).anyTotal > 0 →
      (aggregateNutrition r servingsJs true infos).source = "spoonacular" ∧
      (aggregateNutrition r servingsJs true infos).totals =
        ⟨some (jsRound (infos.foldl addInfoNutrients RawTotals.zero).calories),
         some (jsRound (infos.foldl addInfoNutrients RawTotals.zero).protein),
         some (jsRound (infos.foldl addInfoNutrients RawTotals.zero).carbs),
         some (jsRound (infos.foldl addInfoNutrients RawTotals.zero).fat)⟩) := by
  constructor
  · intro hz
    have hng : ¬ ((infos.foldl addInfoNutrients RawTotals.zero).anyTotal > 0) := by
      rw [hz]; exact lt_irrefl 0
    constructor <;>
      simp [aggregateNutrition, hng, roundOr0]
  · intro hp
    constructor <;>
      simp [aggregateNutrition, hp, roundOr0]

/-- C3 witness: a batch whose only result is skipped accumulates zero
and falls back to the generator estimates (480/22/65/12), while a batch
with a recognized 100-calorie nutrient is tagged "spoonacular". -/
theorem aggregateNutrition_fallback_witness :
    ((([none] : List (Option JsValue)).foldl addInfoNutrients RawTotals.zero).anyTotal = 0) ∧
    (aggregateNutrition
        (.obj [("estimatedCalories", .num 480),
               ("macros", .obj [("protein", .num 22), ("carbs", .num 65), ("fat", .num 12)])])
        (.num 2) true [none]).source = "openai_estimate" ∧
    (aggregateNutrition
        (.obj [("estimatedCalories", .num 480),
               ("macros", .obj [("protein", .num 22), ("carbs", .num 65), ("fat", .num 12)])])
        (.num 2) true [none]).totals = ⟨some 480, some 22, some 65, some 12⟩ ∧
    ((([some (.obj [("nutrition", .obj [("nutrients",
        .arr [.obj [("name", .str "Calories"), ("amount", .num 100)]])])])] :
        List (Option JsValue)).foldl addInfoNutrients RawTotals.zero).anyTotal > 0) ∧
    (aggregateNutrition (.obj []) (.num 2) true
        [some (.obj [("nutrition", .obj [("nutrients",
          .arr [.obj [("name", .str "Calories"), ("amount", .num 100)]])])])]).source =
      "spoonacular" := by
  have hz : (([none] : List (Option JsValue)).foldl addInfoNutrients RawTotals.zero).anyTotal
      = 0 := by with_unfolding_all rfl
  have hp : ((([some (.obj [("nutrition", .obj [("nutrients",
      .arr [.obj [("name", .str "Calories"), ("amount", .num 100)]])])])] :
      List (Option JsValue)).foldl addInfoNutrients RawTotals.zero).anyTotal > 0) := by
    have h100 : (([some (.obj [("nutrition", .obj [("nutrients",
        .arr [.obj [("name", .str "Calories"), ("amount", .num 100)]])])])] :
        List (Option JsValue)).foldl addInfoNutrients RawTotals.zero).anyTotal = 100 := by
      with_unfolding_all rfl
    rw [h100]
    norm_num
  have h1 := (aggregateNutrition_fallback
    (.obj [("estimatedCalories", .num 480),
           ("macros", .obj [("protein", .num 22), ("carbs", .num 65), ("fat", .num 12)])])
    (.num 2) [none]).1 hz
  have h2 := (aggregateNutrition_fallback (.obj []) (.num 2)
    [some (.obj [("nutrition", .obj [("nutrients",
      .arr [.obj [("name", .str "Calories"), ("amount", .num 100)]])])])]).2 hp
  refine ⟨hz, h1.1, ?_, hp, h2.1⟩
  rw [h1.2]
  with_unfolding_all rfl

/-- Rounding an integer is the identity. -/
theorem jsRound_intCast (z : ℤ) : jsRound (z : ℚ) = z := by
  unfold jsRound
  rw [add_comm, Int.floor_add_int]
  norm_num

/-- Per-serving block derived from rounded totals:
`round(total / max(1, servings))` per category. -/
def perServingAll (t : NutOut) (q : ℚ) : NutOut :=
  ⟨t.calories.map (fun z => jsRound ((z : ℚ) / max 1 q)),
   t.protein.map (fun z => jsRound ((z : ℚ) / max 1 q)),
   t.carbs.map (fun z => jsRound ((z : ℚ) / max 1 q)),
   t.fat.map (fun z => jsRound ((z : ℚ) / max 1 q))⟩

/-- C7 (amended): in the enrichment branch, per-serving values equal
`round(total / max(1, servings))` computed independently per category
from the ROUNDED integer totals, and all totals are rounded integers.
In the no-enrichment branch (for a recipe without a pre-existing
nutrition field), totals are rounded integers but per-serving values
divide the UNROUNDED raw estimates; when the generator estimates are
integers the two coincide and `perServing = round(totals / max(1,
servings))` holds there too (second conjunct), but for fractional
estimates it can fail (see the counterexample). -/
theorem perServing_rounding :
    (∀ (r : JsValue) (q : ℚ) (entered : Bool) (infos : List (Option JsValue)),
      (aggregateNutrition r (.num q) entered infos).perServing =
        perServingAll (aggregateNutrition r (.num q) entered infos).totals q) ∧
    (∀ (r : JsValue) (q : ℚ) (zc zp zcb zf : ℤ),
      truthyOpt (jsField r "nutrition") = false →
      jsToNumber (jsOrElse (jsField r "estimatedCalories") (.num 0)) = some (zc : ℚ) →
      jsToNumber (jsOrElse (jsFieldOpt (jsField r "macros") "protein") (.num 0)) =
        some (zp : ℚ) →
      jsToNumber (jsOrElse (jsFieldOpt (jsField r "macros") "carbs") (.num 0)) =
        some (zcb : ℚ) →
      jsToNumber (jsOrElse (jsFieldOpt (jsField r "macros") "fat") (.num 0)) =
        some (zf : ℚ) →
      attachEstimates r (.num q) =
        .computed ⟨⟨some zc, some zp, some zcb, some zf⟩,
          perServingAll ⟨some zc, some zp, some zcb, some zf⟩ q, "openai_estimate"⟩) := by
  constructor
  · intro r q entered infos
    simp [aggregateNutrition, perServingAll, perServingOf, jsToNumber]
  · intro r q zc zp zcb zf hnut hc hp2 hcb hf
    have hbody : attachEstimates.attachEstimatesComputed r (.num q) =
        .computed ⟨⟨some zc, some zp, some zcb, some zf⟩,
          perServingAll ⟨some zc, some zp, some zcb, some zf⟩ q, "openai_estimate"⟩ := by
      simp [attachEstimates.attachEstimatesComputed, attachEstimates.e_round, hc, hp2, hcb,
        hf, perServingAll, jsRound_intCast, show jsToNumber (.num q) = some q from rfl]
    cases hfield : jsField r "nutrition" with
    | none => rw [← hbody]; simp [attachEstimates, hfield]
    | some v =>
      have hv : truthy v = false := by simpa [truthyOpt, hfield] using hnut
      rw [← hbody]
      simp [attachEstimates, hfield, hv]

/-- C7 counterexample: with `estimatedCalories: 2.5` and `servings: 2`
in the no-enrichment branch, the returned totals are `calories: 3` but
`perServing.calories = round(2.5 / 2) = 1`, while the claimed
`round(totals.calories / max(1, 2)) = round(3 / 2) = 2`: the
per-serving value is computed from the unrounded estimate, refuting
the claim at this input. -/
theorem perServing_unrounded_counterexample :
    attachEstimates (.obj [("estimatedCalories", .num (5 / 2))]) (.num 2) =
      .computed ⟨⟨some 3, some 0, some 0, some 0⟩, ⟨some 1, some 0, some 0, some 0⟩,
        "openai_estimate"⟩ ∧
    jsRound (((3 : ℤ) : ℚ) / max 1 (2 : ℚ)) = 2 := by
  constructor
  · with_unfolding_all rfl
  · with_unfolding_all rfl

/-- C7 witness: an enriched recipe (101 calories, 2 servings) satisfies
the per-serving relation on rounded totals, and an integer-estimate
recipe satisfies `perServing = round(totals / max(1, servings))` in
the estimates branch. -/
theorem perServing_rounding_witness :
    (aggregateNutrition (.obj []) (.num 2) true
        [some (.obj [("nutrition", .obj [("nutrients",
          .arr [.obj [("name", .str "Calories"), ("amount", .num 101)]])])])]).perServing =
      perServingAll (aggregateNutrition (.obj []) (.num 2) true
        [some (.obj [("nutrition", .obj [("nutrients",
          .arr [.obj [("name", .str "Calories"), ("amount", .num 101)]])])])]).totals 2 ∧
    truthyOpt (jsField (.obj [("estimatedCalories", .num 480),
        ("macros", .obj [("protein", .num 22)])]) "nutrition") = false ∧
    attachEstimates (.obj [("estimatedCalories", .num 480),
        ("macros", .obj [("protein", .num 22)])]) (.num 2) =
      .computed ⟨⟨some 480, some 22, some 0, some 0⟩,
        perServingAll ⟨some 480, some 22, some 0, some 0⟩ 2, "openai_estimate"⟩ := by
  refine ⟨perServing_rounding.1 _ 2 true _, by with_unfolding_all rfl, ?_⟩
  exact perServing_rounding.2 _ 2 480 22 0 0 (by with_unfolding_all rfl)
    (by with_unfolding_all rfl) (by with_unfolding_all rfl) (by with_unfolding_all rfl)
    (by with_unfolding_all rfl)

/-- C8: each per-ingredient lookup is cached under
`inginfo:id:amount:unit`; on a cache miss a non-OK response or a thrown
fetch is returned as an `{ error: true, … }` value and cached with the
short 60-second ttl, while an OK body is cached with the long
`CACHE_TTL_SECONDS` ttl.  An individual failure never fails the batch:
the fan-out returns one entry per input unconditionally, and the
aggregation fold ignores exactly the skipped (absent or `error`)
entries, summing the rest — folding the batch equals folding its
non-failed entries. -/
theorem ingredientLookup_policy :
    (∀ (cacheTtl : Nat) (oracle : String → FetchOutcome) (st : SysState) (now : Nat)
        (id amount unit : JsValue) (status : ℚ) (txt : String),
      (cacheGet cacheTtl st now (ingInfoKey id amount unit)).1 = none →
      oracle (ingInfoKey id amount unit) = .httpErr status txt →
      (getIngredientInfo true cacheTtl oracle st now id amount unit).1 =
        some (.obj [("error", .bool true), ("status", .num status), ("text", .str txt)]) ∧
      (getIngredientInfo true cacheTtl oracle st now id amount unit).2.mem
          (ingInfoKey id amount unit) =
        some ⟨.obj [("error", .bool true), ("status", .num status), ("text", .str txt)],
          now + 60 * 1000⟩) ∧
    (∀ (cacheTtl : Nat) (oracle : String → FetchOutcome) (st : SysState) (now : Nat)
        (id amount unit : JsValue) (msg : String),
      (cacheGet cacheTtl st now (ingInfoKey id amount unit)).1 = none →
      oracle (ingInfoKey id amount unit) = .threw msg →
      (getIngredientInfo true cacheTtl oracle st now id amount unit).1 =
        some (.obj [("error", .bool true), ("message", .str msg)]) ∧
      (getIngredientInfo true cacheTtl oracle st now id amount unit).2.mem
          (ingInfoKey id amount unit) =
        some ⟨.obj [("error", .bool true), ("message", .str msg)], now + 60 * 1000⟩) ∧
    (∀ (cacheTtl : Nat) (oracle : String → FetchOutcome) (st : SysState) (now : Nat)
        (id amount unit : JsValue) (json : JsValue),
      (cacheGet cacheTtl st now (ingInfoKey id amount unit)).1 = none →
      oracle (ingInfoKey id amount unit) = .ok json →
      (getIngredientInfo true cacheTtl oracle st now id amount unit).1 = some json ∧
      (getIngredientInfo true cacheTtl oracle st now id amount unit).2.mem
          (ingInfoKey id amount unit) = some ⟨json, now + cacheTtl * 1000⟩) ∧
    (∀ (infos : List (Option JsValue)) (t0 : RawTotals),
      infos.foldl addInfoNutrients t0 =
        (infos.filter (fun i => !infoSkipped i)).foldl addInfoNutrients t0) ∧
    (∀ (cacheTtl : Nat) (oracle : String → FetchOutcome) (now : Nat) (st : SysState)
        (ps : List JsValue),
      (runLookups true cacheTtl oracle now st ps).1.length = ps.length) := by
  refine ⟨?_, ?_, ?_, ?_, ?_⟩
  · intro cacheTtl oracle st now id amount unit status txt hmiss horacle
    constructor <;>
      simp [getIngredientInfo, hmiss, horacle, cacheSet, memSet]
  · intro cacheTtl oracle st now id amount unit msg hmiss horacle
    constructor <;>
      simp [getIngredientInfo, hmiss, horacle, cacheSet, memSet]
  · intro cacheTtl oracle st now id amount unit json hmiss horacle
    constructor <;>
      simp [getIngredientInfo, hmiss, horacle, cacheSet, memSet]
  · intro infos
    induction infos with
    | nil => intro t0; rfl
    | cons i rest ih =>
      intro t0
      by_cases hsk : infoSkipped i
      · have hstep : addInfoNutrients t0 i = t0 := by
          unfold addInfoNutrients
          rw [if_pos hsk]
        simp only [List.foldl_cons, List.filter_cons, hsk, Bool.not_true, hstep]
        exact ih t0
      · have hsk' : (!infoSkipped i) = true := by
          simp [hsk]
        simp only [List.foldl_cons, List.filter_cons, hsk', List.foldl_cons]
        exact ih (addInfoNutrients t0 i)
  · intro cacheTtl oracle now st ps
    induction ps generalizing st with
    | nil => rfl
    | cons p rest ih =>
      simp only [runLookups, List.length_cons]
      rw [← ih (lookupTask true cacheTtl oracle st now p).2]

/-- C8 witness: a concrete failing lookup is returned as an error value
and cached for 60 seconds; a batch containing that failure and one good
entry folds exactly like the good entry alone; the fan-out yields one
output per input. -/
theorem ingredientLookup_policy_witness :
    (cacheGet 86400 ⟨emptyStore, none⟩ 0 (ingInfoKey (.num 3) (.num 1) (.str "cup"))).1 =
      none ∧
    (getIngredientInfo true 86400 (fun _ => .httpErr 500 "boom") ⟨emptyStore, none⟩ 0
        (.num 3) (.num 1) (.str "cup")).1 =
      some (.obj [("error", .bool true), ("status", .num 500), ("text", .str "boom")]) ∧
    (getIngredientInfo true 86400 (fun _ => .httpErr 500 "boom") ⟨emptyStore, none⟩ 0
        (.num 3) (.num 1) (.str "cup")).2.mem (ingInfoKey (.num 3) (.num 1) (.str "cup")) =
      some ⟨.obj [("error", .bool true), ("status", .num 500), ("text", .str "boom")],
        0 + 60 * 1000⟩ ∧
    ([some (.obj [("error", .bool true), ("status", .num 500), ("text", .str "boom")]),
        some (.obj [("nutrition", .obj [("nutrients",
          .arr [.obj [("name", .str "Calories"), ("amount", .num 100)]])])])] :
      List (Option JsValue)).foldl addInfoNutrients RawTotals.zero =
      (([some (.obj [("error", .bool true), ("status", .num 500), ("text", .str "boom")]),
        some (.obj [("nutrition", .obj [("nutrients",
          .arr [.obj [("name", .str "Calories"), ("amount", .num 100)]])])])] :
        List (Option JsValue)).filter (fun i => !infoSkipped i)).foldl addInfoNutrients
        RawTotals.zero ∧
    (runLookups true 86400 (fun _ => .httpErr 500 "boom") 0 ⟨emptyStore, none⟩
        [.obj [("id", .num 3), ("amount", .num 1)], .obj []]).1.length = 2 := by
  have h := (ingredientLookup_policy.1 86400 (fun _ => .httpErr 500 "boom")
    ⟨emptyStore, none⟩ 0 (.num 3) (.num 1) (.str "cup") 500 "boom" rfl rfl)
  exact ⟨rfl, h.1, h.2,
    ingredientLookup_policy.2.2.2.1 _ RawTotals.zero,
    ingredientLookup_policy.2.2.2.2 86400 (fun _ => .httpErr 500 "boom") 0
      ⟨emptyStore, none⟩ _⟩

/-- C4: whenever the generation response yields no parsable recipes —
`safeParseJson` returns null on the extracted text, the text is
missing, or the parsed value has no `recipes` array
(`recipesFromText = none` covers exactly `!parsed ||
!Array.isArray(parsed.recipes)`) — a run that reached the generation
stage terminates with the distinct format-error response carrying the
raw text (HTTP 502, the spec's FAILED/GenerationFormatError), and never
with a successful recipe response (in particular never with an
empty-but-successful list). -/
theorem generation_format_failure (cfg : Config) (ext : Externals) (st : SysState)
    (now : Nat) (req : Req) (data : JsValue)
    (hpost : req.method = "POST")
    (hkey : requireProxyKey cfg.proxySecret req.xProxyKey = true)
    (hing : isValidIngredients (destructureBody req.body).ingredients = true)
    (hrl : (checkAndIncrementRateLimit cfg.rateLimitPerDay st ext.redisRlFails
      (proxyIdentity req) now).1.ok = true)
    (hmock : cfg.mock = false)
    (hmiss : (cacheGet cfg.cacheTtlSeconds
      (checkAndIncrementRateLimit cfg.rateLimitPerDay st ext.redisRlFails
        (proxyIdentity req) now).2 now
      (recipeCacheKey cfg.digest ⟨ingredientElems (destructureBody req.body).ingredients,
        (destructureBody req.body).diet, (destructureBody req.body).servings⟩)).1 = none)
    (hoai : cfg.openaiKeyPresent = true)
    (hgen : ext.openaiResult = some data)
    (hbad : recipesFromText (extractGenText data) = none) :
    (handler cfg ext st now req).1 = .formatError (extractGenText data) ∧
    (handler cfg ext st now req).1.isSuccess = false := by
  have hrun : (handler cfg ext st now req).1 = .formatError (extractGenText data) := by
    simp only [handler, hpost, hkey, hing, hrl, hmock, hoai, hgen, hbad, hmiss]
    simp
  exact ⟨hrun, by rw [hrun]; rfl⟩

def formatWitnessCfg : Config :=
  { mock := false, openaiKeyPresent := true, spoonacularKeyPresent := false,
    proxySecret := "", rateLimitPerDay := 50, cacheTtlSeconds := 86400,
    recipeCacheTtl := 21600, digest := fun _ => "d" }

def formatWitnessReq : Req :=
  { method := "POST", debugQuery := false, xProxyKey := none, xProxyToken := none,
    authHeader := none, body := some (.obj [("ingredients", .arr [.str "rice"])]) }

def formatWitnessData : JsValue :=
  .obj [("choices", .arr [.obj [("message", .obj [("content", .str "sorry no json")])]])]

def formatWitnessExt : Externals :=
  { redisRlFails := false, openaiResult := some formatWitnessData,
    parseIngs := fun _ => none, lookup := fun _ => .threw "down" }

/-- C4 witness: a generation response whose content is plain prose runs
the full handler into the format-error response carrying that prose,
and the response is not a success. -/
theorem generation_format_failure_witness :
    recipesFromText (extractGenText formatWitnessData) = none ∧
    extractGenText formatWitnessData = .str "sorry no json" ∧
    (handler formatWitnessCfg formatWitnessExt ⟨emptyStore, none⟩ 0 formatWitnessReq).1 =
      .formatError (.str "sorry no json") ∧
    (handler formatWitnessCfg formatWitnessExt ⟨emptyStore, none⟩ 0
        formatWitnessReq).1.isSuccess = false := by
  have h := generation_format_failure formatWitnessCfg formatWitnessExt ⟨emptyStore, none⟩ 0
    formatWitnessReq formatWitnessData rfl rfl rfl (by with_unfolding_all rfl) rfl
    (by with_unfolding_all rfl) rfl rfl (by with_unfolding_all rfl)
  have hext : extractGenText formatWitnessData = .str "sorry no json" := by
    with_unfolding_all rfl
  exact ⟨by with_unfolding_all rfl, hext, by rw [← hext]; exact h.1, h.2⟩

/-- The shared-tier entry at a key (`none` when the tier is absent or
the key missing). -/
def redisAt (ro : Option RedisKV) (k : String) : Option (JsValue × Option Nat) :=
  ro.bind (fun r => r k)

/-- The live numeric counter value the shared tier holds at a key
(0 for absent, expired or non-numeric entries, exactly the states
`redis.incr` restarts from). -/
def redisCountAt (ro : Option RedisKV) (k : String) (now : Nat) : ℚ :=
  match redisAt ro k with
  | some (.num q, some e) => if now ≥ e then 0 else q
  | some (.num q, none) => q
  | _ => 0

/-- Lazy eviction touches only the queried key. -/
theorem memGet_snd_ne {mem : Store} {now : Nat} {key k : String} (h : k ≠ key) :
    (memGet mem now key).2 k = mem k := by
  unfold memGet
  cases mem key with
  | none => rfl
  | some e =>
    by_cases he : now > e.expiresAt <;> simp [he, h]

/-- A local write touches only its own key. -/
theorem memSet_ne {mem : Store} {now : Nat} {key k : String} {v : JsValue} {ttl : Nat}
    (h : k ≠ key) : memSet mem now key v ttl k = mem k := by
  simp [memSet, h]

/-- `cacheGet` never writes the shared tier. -/
theorem cacheGet_redis_eq (cacheTtl : Nat) (st : SysState) (now : Nat) (key : String) :
    (cacheGet cacheTtl st now key).2.redis = st.redis := by
  unfold cacheGet
  rcases h1 : (memGet st.mem now key).1 with _ | v
  · rcases h2 : st.redis with _ | r
    · simp [h1, h2]
    · rcases h3 : upstashGet r now key with _ | w
      · simp [h1, h2, h3]
      · by_cases ht : truthy w <;> simp [h1, h2, h3, ht]
  · by_cases ht : truthy v
    · simp [h1, ht]
    · rcases h2 : st.redis with _ | r
      · simp [h1, h2, ht]
      · rcases h3 : upstashGet r now key with _ | w
        · simp [h1, h2, h3, ht]
        · by_cases ht2 : truthy w <;> simp [h1, h2, h3, ht, ht2]

/-- `cacheGet` changes the local tier only at the queried key. -/
theorem cacheGet_mem_ne (cacheTtl : Nat) (st : SysState) (now : Nat) {key k : String}
    (h : k ≠ key) : (cacheGet cacheTtl st now key).2.mem k = st.mem k := by
  unfold cacheGet
  rcases h1 : (memGet st.mem now key).1 with _ | v
  · rcases h2 : st.redis with _ | r
    · simp [h1, h2, memGet_snd_ne h]
    · rcases h3 : upstashGet r now key with _ | w
      · simp [h1, h2, h3, memGet_snd_ne h]
      · by_cases ht : truthy w <;>
          simp [h1, h2, h3, ht, memGet_snd_ne h, memSet_ne h]
  · by_cases ht : truthy v
    · simp [h1, ht, memGet_snd_ne h]
    · rcases h2 : st.redis with _ | r
      · simp [h1, h2, ht, memGet_snd_ne h]
      · rcases h3 : upstashGet r now key with _ | w
        · simp [h1, h2, h3, ht, memGet_snd_ne h]
        · by_cases ht2 : truthy w <;>
            simp [h1, h2, h3, ht, ht2, memGet_snd_ne h, memSet_ne h]

/-- `cacheSet` writes the local tier only at its own key. -/
theorem cacheSet_mem_ne (st : SysState) (now : Nat) {key k : String} {v : JsValue}
    {ttl : Nat} (h : k ≠ key) : (cacheSet st now key v ttl).mem k = st.mem k := by
  simp [cacheSet, memSet_ne h]

/-- `cacheSet` writes the shared tier only at its own key. -/
theorem cacheSet_redisAt_ne (st : SysState) (now : Nat) {key k : String} {v : JsValue}
    {ttl : Nat} (h : k ≠ key) : redisAt (cacheSet st now key v ttl).redis k =
      redisAt st.redis k := by
  rcases h2 : st.redis with _ | r <;>
    simp [cacheSet, redisAt, h2, upstashSet, h]

/-- An ingredient lookup touches only its `inginfo:` key in either
tier. -/
theorem getIngredientInfo_preserves (sk : Bool) (cacheTtl : Nat)
    (oracle : String → FetchOutcome) (st : SysState) (now : Nat) (id amount unit : JsValue)
    {k : String} (h : k ≠ ingInfoKey id amount unit) :
    (getIngredientInfo sk cacheTtl oracle st now id amount unit).2.mem k = st.mem k ∧
    redisAt (getIngredientInfo sk cacheTtl oracle st now id amount unit).2.redis k =
      redisAt st.redis k := by
  have hcm : (cacheGet cacheTtl st now (ingInfoKey id amount unit)).2.mem k = st.mem k :=
    cacheGet_mem_ne _ _ _ h
  have hcr : redisAt (cacheGet cacheTtl st now (ingInfoKey id amount unit)).2.redis k =
      redisAt st.redis k := by rw [cacheGet_redis_eq]
  by_cases hsk : sk
  · rcases h1 : (cacheGet cacheTtl st now (ingInfoKey id amount unit)).1 with _ | v
    · rcases h2 : oracle (ingInfoKey id amount unit) with json | ⟨status, txt⟩ | msg <;>
        simp [getIngredientInfo, hsk, h1, h2, hcm, hcr, cacheSet_mem_ne _ _ h,
          cacheSet_redisAt_ne _ _ h]
    · simp [getIngredientInfo, hsk, h1, hcm, hcr]
  · simp [getIngredientInfo, hsk]

/-- A fan-out task touches only `inginfo:` keys. -/
theorem lookupTask_preserves (sk : Bool) (cacheTtl : Nat) (oracle : String → FetchOutcome)
    (st : SysState) (now : Nat) (p : JsValue) {k : String}
    (h : ∀ i a u, k ≠ ingInfoKey i a u) :
    (lookupTask sk cacheTtl oracle st now p).2.mem k = st.mem k ∧
    redisAt (lookupTask sk cacheTtl oracle st now p).2.redis k = redisAt st.redis k := by
  unfold lookupTask
  by_cases hskip : (!truthyOpt (jsField p "id") || !truthyOpt (jsField p "amount")) = true
  · simp [hskip]
  · simp only [Bool.not_eq_true] at hskip
    simp only [hskip, Bool.false_eq_true, if_false]
    exact getIngredientInfo_preserves sk cacheTtl oracle st now _ _ _ (h _ _ _)

/-- The whole fan-out touches only `inginfo:` keys. -/
theorem runLookups_preserves (sk : Bool) (cacheTtl : Nat) (oracle : String → FetchOutcome)
    (now : Nat) (ps : List JsValue) {k : String} (h : ∀ i a u, k ≠ ingInfoKey i a u) :
    ∀ st : SysState,
    (runLookups sk cacheTtl oracle now st ps).2.mem k = st.mem k ∧
    redisAt (runLookups sk cacheTtl oracle now st ps).2.redis k = redisAt st.redis k := by
  induction ps with
  | nil => intro st; exact ⟨rfl, rfl⟩
  | cons p rest ih =>
    intro st
    have h1 := lookupTask_preserves sk cacheTtl oracle st now p h
    have h2 := ih (lookupTask sk cacheTtl oracle st now p).2
    exact ⟨by simp only [runLookups]; rw [h2.1, h1.1],
           by simp only [runLookups]; rw [h2.2, h1.2]⟩

/-- Enriching one recipe touches only `inginfo:` keys. -/
theorem enrichRecipeStep_preserves (sk : Bool) (cacheTtl : Nat)
    (oracle : String → FetchOutcome) (parseIngs : String → Option JsValue)
    (servingsJs : JsValue) (now : Nat) (st : SysState) (r : JsValue) {k : String}
    (h : ∀ i a u, k ≠ ingInfoKey i a u) :
    (enrichRecipeStep sk cacheTtl oracle parseIngs servingsJs now st r).2.mem k = st.mem k ∧
    redisAt (enrichRecipeStep sk cacheTtl oracle parseIngs servingsJs now st r).2.redis k =
      redisAt st.redis k := by
  unfold enrichRecipeStep
  rcases hp : parseIngs (buildIngrList r) with _ | v
  · simp [hp]
  · rcases v with _ | b | q | s | xs | kvs <;> simp [hp]
    by_cases hxs : xs.isEmpty
    · simp [hxs]
    · simp [hxs]
      exact runLookups_preserves sk cacheTtl oracle now xs h st

/-- The enrichment loop touches only `inginfo:` keys. -/
theorem enrichLoop_preserves (sk : Bool) (cacheTtl : Nat) (oracle : String → FetchOutcome)
    (parseIngs : String → Option JsValue) (servingsJs : JsValue) (now : Nat)
    (rs : List JsValue) {k : String} (h : ∀ i a u, k ≠ ingInfoKey i a u) :
    ∀ st : SysState,
    (enrichLoop sk cacheTtl oracle parseIngs servingsJs now st rs).2.mem k = st.mem k ∧
    redisAt (enrichLoop sk cacheTtl oracle parseIngs servingsJs now st rs).2.redis k =
      redisAt st.redis k := by
  induction rs with
  | nil => intro st; exact ⟨rfl, rfl⟩
  | cons r rest ih =>
    intro st
    have h1 := enrichRecipeStep_preserves sk cacheTtl oracle parseIngs servingsJs now st r h
    have h2 := ih (enrichRecipeStep sk cacheTtl oracle parseIngs servingsJs now st r).2
    exact ⟨by simp only [enrichLoop]; rw [h2.1, h1.1],
           by simp only [enrichLoop]; rw [h2.2, h1.2]⟩

/-- Rate-bucket keys live in the `rl:` namespace. -/
theorem rlKey_take2 (pk : String) (now : Nat) : (rlKey pk now).data.take 2 = ['r', 'l'] := by
  unfold rlKey
  rw [show ("rl:" ++ (if pk = "" then "anon" else pk) ++ ":" ++ toString (now / 86400000)) =
    "rl:" ++ ((if pk = "" then "anon" else pk) ++ (":" ++ toString (now / 86400000))) by
      simp [String.append_assoc]]
  rw [String.data_append]
  rfl

/-- Recipe-cache keys live in the `recipe:` namespace. -/
theorem recipeCacheKey_take2 (digest : NormalizedRequest → String) (r : RecipeKeyInput) :
    (recipeCacheKey digest r).data.take 2 = ['r', 'e'] := by
  unfold recipeCacheKey
  rw [String.data_append]
  rfl

/-- Ingredient-cache keys live in the `inginfo:` namespace. -/
theorem ingInfoKey_take2 (id amount unit : JsValue) :
    (ingInfoKey id amount unit).data.take 2 = ['i', 'n'] := by
  unfold ingInfoKey
  rw [show ("inginfo:" ++ jsDisplay id ++ ":" ++ jsDisplay amount ++ ":" ++ jsDisplay unit) =
    "inginfo:" ++ (jsDisplay id ++ (":" ++ (jsDisplay amount ++ (":" ++ jsDisplay unit)))) by
      simp [String.append_assoc]]
  rw [String.data_append]
  rfl

/-- Distinct namespaces give distinct keys. -/
theorem key_ne_of_take2 {a b : String} (h : a.data.take 2 ≠ b.data.take 2) : a ≠ b :=
  fun he => h (he ▸ rfl)

/-- One in-memory limiter call stores the incremented local count with
a 24-hour ttl. -/
theorem rl_mem_count_step (limit : ℚ) (mem0 : Store) (b : Bool) (pk : String) (now : Nat) :
    (checkAndIncrementRateLimit limit ⟨mem0, none⟩ b pk now).2.redis = none ∧
    (checkAndIncrementRateLimit limit ⟨mem0, none⟩ b pk now).2.mem (rlKey pk now) =
      some ⟨.num (localRlCount mem0 now (rlKey pk now) + 1), now + 86400 * 1000⟩ := by
  constructor <;> simp [checkAndIncrementRateLimit, localRlCount, memSet]

/-- One reachable shared-tier limiter call leaves the live counter
exactly one higher (in every prior state of the bucket) and does not
touch the local tier. -/
theorem rl_redis_count_step (limit : ℚ) (mem0 : Store) (r0 : RedisKV) (pk : String)
    (now : Nat) :
    (checkAndIncrementRateLimit limit ⟨mem0, some r0⟩ false pk now).2.mem = mem0 ∧
    redisCountAt (checkAndIncrementRateLimit limit ⟨mem0, some r0⟩ false pk now).2.redis
        (rlKey pk now) now =
      redisCountAt (some r0) (rlKey pk now) now + 1 := by
  constructor
  · simp [checkAndIncrementRateLimit]
  · rcases hk : r0 (rlKey pk now) with _ | ⟨v, eopt⟩
    · simp [checkAndIncrementRateLimit, redisIncr, redisExpire, hk, redisCountAt, redisAt]
    · rcases v with _ | b | q | s | xs | kvs
      case num =>
        rcases eopt with _ | e
        · by_cases h1 : (q + 1 : ℚ) = 1
          · have hq : q = 0 := by linarith
            subst hq
            simp [checkAndIncrementRateLimit, redisIncr, redisExpire, hk, redisCountAt,
              redisAt]
          · simp [checkAndIncrementRateLimit, redisIncr, redisExpire, hk, h1, redisCountAt,
              redisAt]
        · by_cases he : now ≥ e
          · simp [checkAndIncrementRateLimit, redisIncr, redisExpire, hk, he, redisCountAt,
              redisAt]
          · by_cases h1 : (q + 1 : ℚ) = 1
            · have hq : q = 0 := by linarith
              subst hq
              simp [checkAndIncrementRateLimit, redisIncr, redisExpire, hk, he, redisCountAt,
                redisAt]
            · simp [checkAndIncrementRateLimit, redisIncr, redisExpire, hk, he, h1,
                redisCountAt, redisAt]
      all_goals
        simp [checkAndIncrementRateLimit, redisIncr, redisExpire, hk, redisCountAt, redisAt]

/-- After the rate-limit step, no later stage of any handler branch —
mock, recipe-cache read, generation, enrichment, or the recipe-cache
write — touches the rate-bucket key in either tier: the final state
agrees there with the post-rate-limit state. -/
theorem handler_rl_state (cfg : Config) (ext : Externals) (st : SysState) (now : Nat)
    (req : Req) (hpost : req.method = "POST")
    (hkey : requireProxyKey cfg.proxySecret req.xProxyKey = true)
    (hing : isValidIngredients (destructureBody req.body).ingredients = true) {k : String}
    (hkr : k ≠ recipeCacheKey cfg.digest
      ⟨ingredientElems (destructureBody req.body).ingredients,
        (destructureBody req.body).diet, (destructureBody req.body).servings⟩)
    (hki : ∀ i a u, k ≠ ingInfoKey i a u) :
    (handler cfg ext st now req).2.mem k =
      (checkAndIncrementRateLimit cfg.rateLimitPerDay st ext.redisRlFails
        (proxyIdentity req) now).2.mem k ∧
    redisAt (handler cfg ext st now req).2.redis k =
      redisAt (checkAndIncrementRateLimit cfg.rateLimitPerDay st ext.redisRlFails
        (proxyIdentity req) now).2.redis k := by
  have hcgm := cacheGet_mem_ne cfg.cacheTtlSeconds
    (checkAndIncrementRateLimit cfg.rateLimitPerDay st ext.redisRlFails
      (proxyIdentity req) now).2 now hkr
  have hcgr := cacheGet_redis_eq cfg.cacheTtlSeconds
    (checkAndIncrementRateLimit cfg.rateLimitPerDay st ext.redisRlFails
      (proxyIdentity req) now).2 now (recipeCacheKey cfg.digest
      ⟨ingredientElems (destructureBody req.body).ingredients,
        (destructureBody req.body).diet, (destructureBody req.body).servings⟩)
  simp only [handler, hpost, hkey, hing]
  by_cases hok : (checkAndIncrementRateLimit cfg.rateLimitPerDay st ext.redisRlFails
      (proxyIdentity req) now).1.ok
  · by_cases hmock : cfg.mock
    · simp [hok, hmock]
    · rcases hc : (cacheGet cfg.cacheTtlSeconds
          (checkAndIncrementRateLimit cfg.rateLimitPerDay st ext.redisRlFails
            (proxyIdentity req) now).2 now (recipeCacheKey cfg.digest
          ⟨ingredientElems (destructureBody req.body).ingredients,
            (destructureBody req.body).diet, (destructureBody req.body).servings⟩)).1
        with _ | v
      · by_cases hoai : cfg.openaiKeyPresent
        · rcases hgen : ext.openaiResult with _ | data
          · simp [hok, hmock, hc, hoai, hgen, hcgm, hcgr]
          · rcases hrt : recipesFromText (extractGenText data) with _ | rs
            · simp [hok, hmock, hc, hoai, hgen, hrt, hcgm, hcgr]
            · by_cases hsp : cfg.spoonacularKeyPresent
              · have hel := enrichLoop_preserves true
                  cfg.cacheTtlSeconds ext.lookup ext.parseIngs
                  (destructureBody req.body).servings now rs hki
                  (cacheGet cfg.cacheTtlSeconds
                    (checkAndIncrementRateLimit cfg.rateLimitPerDay st ext.redisRlFails
                      (proxyIdentity req) now).2 now (recipeCacheKey cfg.digest
                    ⟨ingredientElems (destructureBody req.body).ingredients,
                      (destructureBody req.body).diet, (destructureBody req.body).servings⟩)).2
                simp [hok, hmock, hc, hoai, hgen, hrt, hsp, cacheSet_mem_ne _ _ hkr,
                  cacheSet_redisAt_ne _ _ hkr, hel.1, hel.2, hcgm, hcgr]
              · simp [hok, hmock, hc, hoai, hgen, hrt, hsp, cacheSet_mem_ne _ _ hkr,
                  cacheSet_redisAt_ne _ _ hkr, hcgm, hcgr]
        · simp [hok, hmock, hc, hoai, hcgm, hcgr]
      · simp [hok, hmock, hc, hcgm, hcgr]
  · simp [hok]

/-- The counter value only depends on the entry at the key. -/
theorem redisCountAt_congr {a b : Option RedisKV} {k : String} (now : Nat)
    (h : redisAt a k = redisAt b k) : redisCountAt a k now = redisCountAt b k now := by
  unfold redisCountAt
  rw [h]

/-- C10: every POST request that passes input validation (proxy key
accepted, non-empty ingredients array) increments the caller's daily
rate counter exactly once, before mock mode or the recipe cache is
consulted: whatever the configuration (mock on or off), cache contents
and external outcomes, the final state holds the old count plus one at
the rate-bucket key — locally with a 24-hour ttl when no shared tier is
configured, and in the shared tier when one is configured and
reachable.  So requests answered from the recipe cache or with canned
mock data still consume quota. -/
theorem rate_counter_before_response (cfg : Config) (ext : Externals) (st : SysState)
    (now : Nat) (req : Req)
    (hpost : req.method = "POST")
    (hkey : requireProxyKey cfg.proxySecret req.xProxyKey = true)
    (hing : isValidIngredients (destructureBody req.body).ingredients = true) :
    (st.redis = none →
      (handler cfg ext st now req).2.mem (rlKey (proxyIdentity req) now) =
        some ⟨.num (localRlCount st.mem now (rlKey (proxyIdentity req) now) + 1),
          now + 86400 * 1000⟩) ∧
    (ext.redisRlFails = false → ∀ r0, st.redis = some r0 →
      redisCountAt (handler cfg ext st now req).2.redis (rlKey (proxyIdentity req) now) now =
        redisCountAt st.redis (rlKey (proxyIdentity req) now) now + 1) := by
  have hne_rec : rlKey (proxyIdentity req) now ≠ recipeCacheKey cfg.digest
      ⟨ingredientElems (destructureBody req.body).ingredients,
        (destructureBody req.body).diet, (destructureBody req.body).servings⟩ :=
    key_ne_of_take2 (by rw [rlKey_take2, recipeCacheKey_take2]; decide)
  have hne_ing : ∀ i a u, rlKey (proxyIdentity req) now ≠ ingInfoKey i a u :=
    fun i a u => key_ne_of_take2 (by rw [rlKey_take2, ingInfoKey_take2]; decide)
  obtain ⟨mem0, redis0⟩ := st
  have hstate := handler_rl_state cfg ext ⟨mem0, redis0⟩ now req hpost hkey hing hne_rec
    hne_ing
  constructor
  · intro hr
    simp only at hr
    subst hr
    rw [hstate.1]
    exact (rl_mem_count_step cfg.rateLimitPerDay mem0 ext.redisRlFails
      (proxyIdentity req) now).2
  · intro hf r0 hr
    simp only at hr
    subst hr
    rw [hf] at hstate
    rw [redisCountAt_congr now hstate.2]
    exact (rl_redis_count_step cfg.rateLimitPerDay mem0 r0 (proxyIdentity req) now).2

/-- Mock-mode configuration for the C10 witness. -/
def mockModeCfg : Config :=
  { mock := true, openaiKeyPresent := true, spoonacularKeyPresent := false,
    proxySecret := "s3cret", rateLimitPerDay := 50, cacheTtlSeconds := 86400,
    recipeCacheTtl := 21600, digest := fun _ => "d" }

/-- Validated request for the C10 witness. -/
def mockModeReq : Req :=
  { method := "POST", debugQuery := false, xProxyKey := some "s3cret", xProxyToken := none,
    authHeader := none, body := some (.obj [("ingredients", .arr [.str "rice"])]) }

/-- External world for the C10 witness (never consulted in mock
mode). -/
def mockModeExt : Externals :=
  { redisRlFails := false, openaiResult := none, parseIngs := fun _ => none,
    lookup := fun _ => .threw "x" }

/-- C10 witness: a mock-mode request is answered with canned data yet
the daily counter at `rl:s3cret:0` becomes 1 (in-memory case), and a
shared-tier run increments the live shared counter by one. -/
theorem rate_counter_before_response_witness :
    (handler mockModeCfg mockModeExt ⟨emptyStore, none⟩ 0 mockModeReq).1 = .mockResponse ∧
    (handler mockModeCfg mockModeExt ⟨emptyStore, none⟩ 0 mockModeReq).2.mem
        (rlKey (proxyIdentity mockModeReq) 0) =
      some ⟨.num (localRlCount emptyStore 0 (rlKey (proxyIdentity mockModeReq) 0) + 1),
        0 + 86400 * 1000⟩ ∧
    (handler mockModeCfg mockModeExt ⟨emptyStore, none⟩ 0 mockModeReq).2.mem
        "rl:s3cret:0" = some ⟨.num 1, 86400000⟩ ∧
    redisCountAt (handler mockModeCfg mockModeExt ⟨emptyStore, some emptyRedis⟩ 0
        mockModeReq).2.redis (rlKey (proxyIdentity mockModeReq) 0) 0 =
      redisCountAt (some emptyRedis) (rlKey (proxyIdentity mockModeReq) 0) 0 + 1 := by
  refine ⟨by with_unfolding_all rfl, ?_, by with_unfolding_all rfl, ?_⟩
  · exact (rate_counter_before_response mockModeCfg mockModeExt ⟨emptyStore, none⟩ 0
      mockModeReq rfl (by with_unfolding_all rfl) (by with_unfolding_all rfl)).1 rfl
  · exact (rate_counter_before_response mockModeCfg mockModeExt ⟨emptyStore, some emptyRedis⟩
      0 mockModeReq rfl (by with_unfolding_all rfl) (by with_unfolding_all rfl)).2 rfl
      emptyRedis rfl
